import Mathlib

/-!
# Ceph: MDS client engine (kernel/mds_client.h) and OSD types (osd/osd_types.h)

A shallow embedding of the data declared in `kernel/mds_client.h` and of the
inline functions of `osd/osd_types.h`, with the properties of the
specification stated over it.

`mds_client.h` only declares the engine's entry points; their bodies are
modelled from the specification and marked as such, and the counters they
maintain behave as the specification words them.  The inline functions of
`osd_types.h` are translated from their code.
-/

namespace Ceph

/-! ## kernel/mds_client.h: data -/

/-- CEPH_MDS_SESSION_NEW of the anonymous enum of mds_client.h. -/
def CEPH_MDS_SESSION_NEW : Int := 1
/-- CEPH_MDS_SESSION_OPENING of the anonymous enum of mds_client.h. -/
def CEPH_MDS_SESSION_OPENING : Int := 2
/-- CEPH_MDS_SESSION_OPEN of the anonymous enum of mds_client.h. -/
def CEPH_MDS_SESSION_OPEN : Int := 3
/-- CEPH_MDS_SESSION_CLOSING of the anonymous enum of mds_client.h. -/
def CEPH_MDS_SESSION_CLOSING : Int := 4
/-- CEPH_MDS_SESSION_RESUMING of the anonymous enum of mds_client.h. -/
def CEPH_MDS_SESSION_RESUMING : Int := 5
/-- CEPH_MDS_SESSION_RECONNECTING of the anonymous enum of mds_client.h. -/
def CEPH_MDS_SESSION_RECONNECTING : Int := 6

/-- Addition of one on a C `int` in 32-bit two's complement, as the machine
does it: INT_MAX + 1 is INT_MIN (the C standard leaves that overflow
undefined). -/
def int_incr (x : Int) : Int := (x + 1 + 2 ^ 31) % 2 ^ 32 - 2 ^ 31

/-- Modelled from the spec: `struct ceph_inode_cap`, which mds_client.h names
but does not declare.  Section 3, Capability: inode reference, granted
permission bits, sequence number (the owning session is the session whose
`s_caps` holds the record). -/
structure ceph_inode_cap where
  ino : Nat
  issued : Nat
  seq : Nat
deriving DecidableEq, Repr

/-- The `struct ceph_mds_session` of mds_client.h.  Locks, the reference count
and the completion are left out; the list heads are lists. -/
structure ceph_mds_session where
  s_mds : Int
  s_state : Int
  s_cap_seq : Nat
  s_cap_ttl : Nat
  s_renew_requested : Nat
  s_caps : List ceph_inode_cap
  s_inode_leases : List Nat
  s_dentry_leases : List Nat
  s_nr_caps : Int
deriving DecidableEq, Repr

/-- Modelled from the spec: the outbound `struct ceph_msg` of a request
(messenger.h is not part of the sources).  Section 6: an operation code with up
to two (inode, path) targets. -/
structure ceph_msg where
  op : Int
  ino1 : Nat
  path1 : String
  ino2 : Nat
  path2 : String
deriving DecidableEq, Repr

/-- Modelled from the spec: what `r_completion` has signalled.  Section 5: the
completion is moved by a reply, a forward failure or teardown. -/
inductive completion_state where
  | pending
  | replied
  | too_many_forwards
  | shutting_down
deriving DecidableEq, Repr

/-- The `struct ceph_mds_request` of mds_client.h.  Sessions are referred to by
their rank (the index into `sessions`), `none` for a NULL pointer; the reply and
the inode/dentry references are left out. -/
structure ceph_mds_request where
  r_tid : Nat
  r_request : ceph_msg
  r_expects_cap : Int
  r_fmode : Int
  r_session : Option Nat
  r_fwd_session : Option Nat
  r_attempts : Int
  r_num_fwd : Int
  r_resend_mds : Int
  r_ref : Int
  r_completion : completion_state
deriving DecidableEq, Repr

/-- Modelled from the spec: `struct ceph_mdsmap` (mdsmap.h is not part of the
sources).  Section 3, ClusterMap: the epoch of the map and the ranks it
holds. -/
structure ceph_mdsmap where
  m_epoch : Nat
  m_ranks : List Int
deriving DecidableEq, Repr

/-- The `struct ceph_mds_client` of mds_client.h.  `sessions` is the array of
session pointers indexed by rank (`none` for NULL) and `max_sessions` its
length, `request_tree` the radix tree as a sparse association from transaction
id to request.  The lock and the waiters are left out. -/
structure ceph_mds_client where
  mdsmap : ceph_mdsmap
  sessions : List (Option ceph_mds_session)
  last_tid : Nat
  request_tree : List (Nat × ceph_mds_request)
  last_requested_map : Nat
deriving DecidableEq, Repr

/-! ## Request registry (section 4.3) -/

/-- Modelled from the spec: the body of `ceph_mdsc_create_request`, declared in
mds_client.h.  Section 4.3: allocates a Request with a fresh, strictly
increasing transaction id, constructs the outbound message, sets attempt/forward
counters to zero, and returns ownership to the caller (reference count = 1).
The id is the successor of the `last_tid` counter of the client ("most recent
mds request"), which section 4.3 gives as monotonically increasing. -/
def ceph_mdsc_create_request (mdsc : ceph_mds_client) (op : Int)
    (ino1 : Nat) (path1 : String) (ino2 : Nat) (path2 : String) :
    ceph_mds_request × ceph_mds_client :=
  let tid := mdsc.last_tid + 1
  ({ r_tid := tid
     r_request := { op := op, ino1 := ino1, path1 := path1, ino2 := ino2, path2 := path2 }
     r_expects_cap := 0
     r_fmode := 0
     r_session := none
     r_fwd_session := none
     r_attempts := 0
     r_num_fwd := 0
     r_resend_mds := -1
     r_ref := 1
     r_completion := completion_state.pending },
   { mdsc with last_tid := tid })

/-- Modelled from the spec: the registration step of `ceph_mdsc_do_request`
(section 4.3: "registers the request under its transaction id").  The registry
associates one request with an id: the request takes the place of whatever was
stored under its id. -/
def register_request (mdsc : ceph_mds_client) (req : ceph_mds_request) :
    ceph_mds_client :=
  { mdsc with request_tree :=
      (req.r_tid, req) :: mdsc.request_tree.filter (fun e => e.1 != req.r_tid) }

/-- Modelled from the spec: the registry lookup of the Dispatcher (section 4.3:
"looks up the transaction id in the registry"). -/
def lookup_request (mdsc : ceph_mds_client) (tid : Nat) : Option ceph_mds_request :=
  (mdsc.request_tree.find? (fun e => e.1 == tid)).map Prod.snd

/-- Modelled from the spec: the release of the last reference by
`ceph_mdsc_put_request` (section 4.3: the request stays registered until the
caller calls put_request; on last reference the request is freed). -/
def unregister_request (mdsc : ceph_mds_client) (tid : Nat) : ceph_mds_client :=
  { mdsc with request_tree := mdsc.request_tree.filter (fun e => e.1 != tid) }

/-- One step of a caller of the registry: create a request, hand the i-th
created request to `do_request` (which registers it), or release the request
registered under a transaction id. -/
inductive registry_event where
  | create (op : Int) (ino1 : Nat) (path1 : String) (ino2 : Nat) (path2 : String)
  | submit (i : Nat)
  | put (tid : Nat)
deriving DecidableEq, Repr

/-- The client together with the requests that were created and are still held
by their callers, not yet registered. -/
structure registry_state where
  mdsc : ceph_mds_client
  held : List ceph_mds_request
deriving DecidableEq, Repr

/-- Effect of one registry event. -/
def registry_step (s : registry_state) : registry_event → registry_state
  | registry_event.create op ino1 path1 ino2 path2 =>
      let r := ceph_mdsc_create_request s.mdsc op ino1 path1 ino2 path2
      { mdsc := r.2, held := s.held ++ [r.1] }
  | registry_event.submit i =>
      match s.held.get? i with
      | some req => { mdsc := register_request s.mdsc req, held := s.held.eraseIdx i }
      | none => s
  | registry_event.put tid => { s with mdsc := unregister_request s.mdsc tid }

/-- Effect of a sequence of registry events. -/
def registry_run (s : registry_state) (evs : List registry_event) : registry_state :=
  evs.foldl registry_step s

/-- The transaction ids handed out by the `create` events of a run, oldest
first. -/
def assigned_tids (s : registry_state) : List registry_event → List Nat
  | [] => []
  | ev :: evs =>
      match ev with
      | registry_event.create op ino1 path1 ino2 path2 =>
          (ceph_mdsc_create_request s.mdsc op ino1 path1 ino2 path2).1.r_tid
            :: assigned_tids (registry_step s ev) evs
      | _ => assigned_tids (registry_step s ev) evs

/-- Number of `create` events in a run. -/
def count_creates : List registry_event → Nat
  | [] => 0
  | registry_event.create _ _ _ _ _ :: evs => count_creates evs + 1
  | _ :: evs => count_creates evs

/-- The transaction ids of the live requests: those held by callers and those
registered. -/
def live_tids (s : registry_state) : List Nat :=
  s.held.map (fun r => r.r_tid) ++ s.mdsc.request_tree.map (fun e => e.2.r_tid)

/-- Well-formed registry: every registered request is stored under its own
`r_tid`, live requests have pairwise different ids, and no live id is above
`last_tid`. -/
def registry_wf (s : registry_state) : Prop :=
  (∀ e ∈ s.mdsc.request_tree, e.1 = e.2.r_tid) ∧
  (live_tids s).Nodup ∧
  (∀ t ∈ live_tids s, t ≤ s.mdsc.last_tid)


/-- A client without sessions and without registered requests whose counter
stands at `last`, nothing held by callers. -/
def registry_empty (last : Nat) : registry_state :=
  { mdsc := { mdsmap := { m_epoch := 0, m_ranks := [] }, sessions := [], last_tid := last,
              request_tree := [], last_requested_map := 0 },
    held := [] }

/-! ## Sessions and capabilities (sections 4.2 and 4.4) -/

/-- The session pointer stored at `mdsc->sessions[mds]`, `none` when the rank
is outside the array or the slot is NULL. -/
def get_session (mdsc : ceph_mds_client) (mds : Nat) : Option ceph_mds_session :=
  mdsc.sessions.getD mds none

/-- Write through the session pointer stored at `mdsc->sessions[mds]`. -/
def set_session (mdsc : ceph_mds_client) (mds : Nat) (s : ceph_mds_session) :
    ceph_mds_client :=
  { mdsc with sessions := mdsc.sessions.set mds (some s) }

/-- Modelled from the spec: the decoded payload of a capability message
(section 6, "capability update"; section 4.4, `apply_cap_message(session, inode,
seq, bits)`).  `mds` is the rank of the session the message arrived on. -/
structure filecaps_msg where
  mds : Nat
  ino : Nat
  seq : Nat
  caps : Nat
deriving DecidableEq, Repr

/-- The capability a session holds for an inode, if any. -/
def find_cap (caps : List ceph_inode_cap) (ino : Nat) : Option ceph_inode_cap :=
  caps.find? (fun c => c.ino == ino)

/-- Overwrite the granted bits and the sequence number of the capability held
for an inode. -/
def update_cap (caps : List ceph_inode_cap) (ino seq bits : Nat) : List ceph_inode_cap :=
  caps.map (fun c => if c.ino == ino then { c with issued := bits, seq := seq } else c)

/-- Modelled from the spec: the body of `ceph_mdsc_handle_filecaps`, declared in
mds_client.h.  Section 4.4: discards messages with seq not strictly greater than
the last applied seq for that (inode, session) pair; otherwise updates granted
bits and seq, and records the cap under the session's collection if new (the
session's count of live capabilities, section 3, goes up by one then).  A
message for a rank without a session is discarded. -/
def ceph_mdsc_handle_filecaps (mdsc : ceph_mds_client) (msg : filecaps_msg) :
    ceph_mds_client :=
  match get_session mdsc msg.mds with
  | none => mdsc
  | some s =>
    match find_cap s.s_caps msg.ino with
    | some c =>
      if c.seq < msg.seq then
        set_session mdsc msg.mds
          { s with s_caps := update_cap s.s_caps msg.ino msg.seq msg.caps }
      else mdsc
    | none =>
      set_session mdsc msg.mds
        { s with s_caps := s.s_caps ++ [{ ino := msg.ino, issued := msg.caps, seq := msg.seq }]
                 s_nr_caps := int_incr s.s_nr_caps }

/-- The capability recorded for an (inode, session) pair, if any. -/
def lookup_cap (mdsc : ceph_mds_client) (mds ino : Nat) : Option ceph_inode_cap :=
  match get_session mdsc mds with
  | none => none
  | some s => find_cap s.s_caps ino

/-- Handle a sequence of capability messages in their order of arrival. -/
def handle_filecaps_all (mdsc : ceph_mds_client) (msgs : List filecaps_msg) :
    ceph_mds_client :=
  msgs.foldl ceph_mdsc_handle_filecaps mdsc

/-! ## Forwards and replies (section 4.3) -/

/-- Modelled from the spec: the decoded payload of a forward message (section 6:
a transaction id and the rank the request was forwarded to). -/
structure forward_msg where
  tid : Nat
  next_mds : Nat
deriving DecidableEq, Repr

/-- Modelled from the spec: the decoded payload of a reply (section 6: a
transaction id and the reply payload; section 4.3: embedded capability grants).
`mds` is the rank the reply arrived from. -/
structure reply_msg where
  tid : Nat
  mds : Nat
  grants : List filecaps_msg
deriving DecidableEq, Repr

/-- Write through the request pointer found under a transaction id: the first
entry of the tree with that key. -/
def update_request : List (Nat × ceph_mds_request) → Nat → ceph_mds_request →
    List (Nat × ceph_mds_request)
  | [], _, _ => []
  | e :: t, tid, r =>
    if e.1 == tid then (e.1, r) :: t else e :: update_request t tid r

/-- Modelled from the spec: the body of `ceph_mdsc_handle_forward`, declared in
mds_client.h, with the configured forward limit `max_fwd` as a parameter.
Section 4.3: the Dispatcher looks up the transaction id in the registry;
Forward: increments the forward counter; if it exceeds a bound, the request
fails with a TooManyForwards condition rather than looping forever; otherwise
re-targets the request at the new rank, records the prior session as
`r_fwd_session`, and re-sends without waking the original caller.  The second
component is the re-send: the rank and the message, `none` when nothing is
sent. -/
def ceph_mdsc_handle_forward (max_fwd : Int) (mdsc : ceph_mds_client) (msg : forward_msg) :
    ceph_mds_client × Option (Nat × ceph_msg) :=
  match lookup_request mdsc msg.tid with
  | none => (mdsc, none)
  | some req =>
    let n := req.r_num_fwd + 1
    if max_fwd < n then
      let failed : ceph_mds_request :=
        { req with r_num_fwd := n, r_completion := completion_state.too_many_forwards }
      ({ mdsc with request_tree := update_request mdsc.request_tree msg.tid failed }, none)
    else
      let retargeted : ceph_mds_request :=
        { req with r_num_fwd := n
                   r_fwd_session := req.r_session
                   r_session := some msg.next_mds
                   r_resend_mds := (msg.next_mds : Int) }
      ({ mdsc with request_tree := update_request mdsc.request_tree msg.tid retargeted },
       some (msg.next_mds, req.r_request))

/-- Modelled from the spec: the body of `ceph_mdsc_handle_reply`, declared in
mds_client.h.  Section 4.3: the Dispatcher looks up the transaction id in the
registry; Reply: validates it against the currently owning session; if
`r_resend_mds` indicates the reply arrived on the wrong rank (stale), it is
discarded; on a valid reply, apply any embedded capability grants, signal
completion, and leave the request registered. -/
def ceph_mdsc_handle_reply (mdsc : ceph_mds_client) (msg : reply_msg) : ceph_mds_client :=
  match lookup_request mdsc msg.tid with
  | none => mdsc
  | some req =>
    if req.r_session = some msg.mds ∧
        (req.r_resend_mds < 0 ∨ req.r_resend_mds = (msg.mds : Int)) then
      let mdsc1 := handle_filecaps_all mdsc msg.grants
      let done : ceph_mds_request := { req with r_completion := completion_state.replied }
      { mdsc1 with request_tree := update_request mdsc1.request_tree msg.tid done }
    else mdsc

/-- The edges of the section 4.2 state machine, on the state codes of
mds_client.h. -/
def session_edge (a b : Int) : Bool :=
  (a == CEPH_MDS_SESSION_NEW && b == CEPH_MDS_SESSION_OPENING) ||
  (a == CEPH_MDS_SESSION_OPENING && b == CEPH_MDS_SESSION_OPEN) ||
  (a == CEPH_MDS_SESSION_OPEN && b == CEPH_MDS_SESSION_CLOSING) ||
  (a == CEPH_MDS_SESSION_CLOSING && b == CEPH_MDS_SESSION_NEW) ||
  (a == CEPH_MDS_SESSION_OPEN && b == CEPH_MDS_SESSION_RECONNECTING) ||
  (a == CEPH_MDS_SESSION_RECONNECTING && b == CEPH_MDS_SESSION_OPEN) ||
  (a == CEPH_MDS_SESSION_RESUMING && b == CEPH_MDS_SESSION_OPEN) ||
  (b == CEPH_MDS_SESSION_RESUMING)

/-- Modelled from the spec: the kinds of session control message (section 6:
"session control (open/close/reconnect ack)"). -/
inductive session_op where
  | open_ack
  | close_ack
  | reconnect_ack
deriving DecidableEq, Repr

/-- Modelled from the spec: the decoded payload of a session control message;
`mds` is the rank it arrived from. -/
structure session_msg where
  mds : Nat
  op : session_op
deriving DecidableEq, Repr

/-- Store a new state code in the session of a rank. -/
def set_state (mdsc : ceph_mds_client) (mds : Nat) (s : ceph_mds_session) (st : Int) :
    ceph_mds_client :=
  set_session mdsc mds { s with s_state := st }

/-- Modelled from the spec: the body of `ceph_mdsc_handle_session`, declared in
mds_client.h.  Section 4.2: OPENING → OPEN on receiving a successful
session-open acknowledgement; RECONNECTING → OPEN on acknowledgement of the
reconnect; CLOSING → NEW when the close is acknowledged.  An acknowledgement
that does not match the state of the session is ignored. -/
def ceph_mdsc_handle_session (mdsc : ceph_mds_client) (msg : session_msg) :
    ceph_mds_client :=
  match get_session mdsc msg.mds with
  | none => mdsc
  | some s =>
    match msg.op with
    | session_op.open_ack =>
      if s.s_state = CEPH_MDS_SESSION_OPENING then
        set_state mdsc msg.mds s CEPH_MDS_SESSION_OPEN
      else mdsc
    | session_op.close_ack =>
      if s.s_state = CEPH_MDS_SESSION_CLOSING then
        set_state mdsc msg.mds s CEPH_MDS_SESSION_NEW
      else mdsc
    | session_op.reconnect_ack =>
      if s.s_state = CEPH_MDS_SESSION_RECONNECTING then
        set_state mdsc msg.mds s CEPH_MDS_SESSION_OPEN
      else mdsc

/-- A session for a rank as it is allocated: state NEW, nothing held. -/
def new_session (mds : Nat) : ceph_mds_session :=
  { s_mds := (mds : Int)
    s_state := CEPH_MDS_SESSION_NEW
    s_cap_seq := 0
    s_cap_ttl := 0
    s_renew_requested := 0
    s_caps := []
    s_inode_leases := []
    s_dentry_leases := []
    s_nr_caps := 0 }

/-- Modelled from the spec: `get_or_open(rank)` of section 4.2: returns a shared
reference, creating and transitioning to OPENING if absent; NEW → OPENING on
first request needing this rank.  The array of sessions grows to hold the
rank. -/
def session_get_or_open (mdsc : ceph_mds_client) (mds : Nat) : ceph_mds_client :=
  match get_session mdsc mds with
  | some s =>
    if s.s_state = CEPH_MDS_SESSION_NEW then
      set_state mdsc mds s CEPH_MDS_SESSION_OPENING
    else mdsc
  | none =>
    set_state
      { mdsc with sessions :=
          mdsc.sessions ++ List.replicate (mds + 1 - mdsc.sessions.length) none }
      mds (new_session mds) CEPH_MDS_SESSION_OPENING

/-- Modelled from the spec: section 3, Lease: leases are removed en masse when a
session closes or reconnects. -/
def drop_session_leases (s : ceph_mds_session) : ceph_mds_session :=
  { s with s_inode_leases := [], s_dentry_leases := [] }

/-- Modelled from the spec: `close(session)` of section 4.2: OPEN → CLOSING on
explicit close or idle timeout; the leases of the session go. -/
def session_close (mdsc : ceph_mds_client) (mds : Nat) : ceph_mds_client :=
  match get_session mdsc mds with
  | some s =>
    if s.s_state = CEPH_MDS_SESSION_OPEN then
      set_state mdsc mds (drop_session_leases s) CEPH_MDS_SESSION_CLOSING
    else mdsc
  | none => mdsc

/-- Modelled from the spec: section 4.2, OPEN → RECONNECTING on detecting the
remote rank restarted; the leases of the session go. -/
def session_peer_restarted (mdsc : ceph_mds_client) (mds : Nat) : ceph_mds_client :=
  match get_session mdsc mds with
  | some s =>
    if s.s_state = CEPH_MDS_SESSION_OPEN then
      set_state mdsc mds (drop_session_leases s) CEPH_MDS_SESSION_RECONNECTING
    else mdsc
  | none => mdsc

/-- Modelled from the spec: section 4.2, any state → RESUMING after a transient
connection failure. -/
def session_connection_failed (mdsc : ceph_mds_client) (mds : Nat) : ceph_mds_client :=
  match get_session mdsc mds with
  | some s => set_state mdsc mds s CEPH_MDS_SESSION_RESUMING
  | none => mdsc

/-- Modelled from the spec: section 4.2, RESUMING → OPEN: the session is
unusable until retried. -/
def session_retried (mdsc : ceph_mds_client) (mds : Nat) : ceph_mds_client :=
  match get_session mdsc mds with
  | some s =>
    if s.s_state = CEPH_MDS_SESSION_RESUMING then
      set_state mdsc mds s CEPH_MDS_SESSION_OPEN
    else mdsc
  | none => mdsc

/-- Apply a change to every session of the client. -/
def map_sessions (f : ceph_mds_session → ceph_mds_session) (mdsc : ceph_mds_client) :
    ceph_mds_client :=
  { mdsc with sessions := mdsc.sessions.map (Option.map f) }

/-- The close of section 4.2 on one session record: OPEN → CLOSING with the
leases gone, any other state left as it is. -/
def close_session (s : ceph_mds_session) : ceph_mds_session :=
  if s.s_state = CEPH_MDS_SESSION_OPEN then
    { drop_session_leases s with s_state := CEPH_MDS_SESSION_CLOSING }
  else s

/-- Modelled from the spec: the decoded payload of a cluster-map update (section
6): the epoch of the new map and the ranks it holds. -/
structure map_msg where
  epoch : Nat
  ranks : List Int
deriving DecidableEq, Repr

/-- Modelled from the spec: the body of `ceph_mdsc_handle_map`, declared in
mds_client.h.  Section 4.1, `apply_map_update(msg)`: installs a newer map (no-op
if epoch not newer); applying a map update may invalidate sessions whose target
rank no longer exists, marking them for close.  Section 3 lets only the Session
Manager and the session-control replies change the state of a session, so a
session marked for close goes through the close of section 4.2. -/
def ceph_mdsc_handle_map (mdsc : ceph_mds_client) (msg : map_msg) : ceph_mds_client :=
  if mdsc.mdsmap.m_epoch < msg.epoch then
    map_sessions (fun s => if s.s_mds ∈ msg.ranks then s else close_session s)
      { mdsc with mdsmap := { m_epoch := msg.epoch, m_ranks := msg.ranks } }
  else mdsc

/-- Modelled from the spec: the decoded payload of a lease message (section 6,
"lease grant/revoke"): the rank it arrived from, whether the target is a dentry
or an inode, the target, and whether the lease is revoked or granted. -/
structure lease_msg where
  mds : Nat
  dentry : Bool
  target : Nat
  revoke : Bool
deriving DecidableEq, Repr

/-- The lease collections of a session after a grant or a revoke. -/
def apply_lease (s : ceph_mds_session) (msg : lease_msg) : ceph_mds_session :=
  if msg.revoke then
    if msg.dentry then
      { s with s_dentry_leases := s.s_dentry_leases.filter (fun t => t != msg.target) }
    else
      { s with s_inode_leases := s.s_inode_leases.filter (fun t => t != msg.target) }
  else if s.s_state = CEPH_MDS_SESSION_OPEN then
    if msg.dentry then
      { s with s_dentry_leases := msg.target :: s.s_dentry_leases }
    else
      { s with s_inode_leases := msg.target :: s.s_inode_leases }
  else s

/-- Modelled from the spec: the body of `ceph_mdsc_handle_lease`, declared in
mds_client.h.  Sections 3 and 4.5: a lease is recorded in the collection of its
owning session and is valid only while that session is OPEN; a revoked lease is
removed.  A message for a rank without a session is discarded. -/
def ceph_mdsc_handle_lease (mdsc : ceph_mds_client) (msg : lease_msg) : ceph_mds_client :=
  match get_session mdsc msg.mds with
  | none => mdsc
  | some s => set_session mdsc msg.mds (apply_lease s msg)

/-- Modelled from the spec: the body of `ceph_mdsc_lease_release`, declared in
mds_client.h.  Section 4.5, `lease_release(inode, dentry, mask)`: removes
matching lease entries for the given targets from their owning session's
collections (the mask goes into the notification to the MDS). -/
def ceph_mdsc_lease_release (mdsc : ceph_mds_client) (inode dn : Nat) (_mask : Int) :
    ceph_mds_client :=
  map_sessions (fun s =>
    { s with s_inode_leases := s.s_inode_leases.filter (fun t => t != inode)
             s_dentry_leases := s.s_dentry_leases.filter (fun t => t != dn) }) mdsc

/-- Modelled from the spec: the body of `ceph_mdsc_drop_leases`, declared in
mds_client.h.  Section 4.5, `drop_leases(client)`: bulk-releases all leases
across all sessions. -/
def ceph_mdsc_drop_leases (mdsc : ceph_mds_client) : ceph_mds_client :=
  map_sessions drop_session_leases mdsc

/-- Modelled from the spec: the body of `__ceph_mdsc_send_cap`, declared in
mds_client.h.  Section 4.4, `send_cap(session, cap, used, wanted,
cancel_pending_work)`: constructs and sends a cap-update/release message
reflecting current usage versus desired permissions.  The result is the client,
which the send leaves as it is, and the message: rank, inode, used and wanted
bits. -/
def ceph_mdsc_send_cap (mdsc : ceph_mds_client) (mds : Nat) (cap : ceph_inode_cap)
    (used wanted : Int) (_cancel_work : Int) : ceph_mds_client × (Nat × Nat × Int × Int) :=
  (mdsc, (mds, cap.ino, used, wanted))

/-- Modelled from the spec: `renew_caps(session)` of section 4.2: reissues
capability-keepalive if TTL is within a renewal window; `now` is the time of the
call and `window` the renewal window. -/
def session_renew_caps (now window : Nat) (s : ceph_mds_session) : ceph_mds_session :=
  if s.s_cap_ttl ≤ now + window then { s with s_renew_requested := now } else s

/-- Modelled from the spec: the periodic maintenance task (section 2: renews
caps nearing expiry and times out stale sessions; section 4.2: OPEN → CLOSING
on idle timeout).  A session whose TTL has elapsed is closed, the others renew
their caps when due. -/
def delayed_work (mdsc : ceph_mds_client) (now window : Nat) : ceph_mds_client :=
  map_sessions (fun s =>
    if s.s_cap_ttl < now then close_session s else session_renew_caps now window s) mdsc

/-- Modelled from the spec: the body of `ceph_mdsc_stop`, declared in
mds_client.h.  Sections 4.2, 5 and 7: teardown closes the sessions (`close`
initiates graceful shutdown) and wakes every blocked caller with a ShuttingDown
failure. -/
def ceph_mdsc_stop (mdsc : ceph_mds_client) : ceph_mds_client :=
  map_sessions close_session
    { mdsc with request_tree := mdsc.request_tree.map (fun e =>
        if e.2.r_completion = completion_state.pending then
          (e.1, { e.2 with r_completion := completion_state.shutting_down })
        else e) }

/-- Modelled from the spec: the body of `ceph_mdsc_do_request`, declared in
mds_client.h, up to the point where the caller blocks.  Section 4.3: resolves
the target MDS rank (here given as `mds`), obtains a session (opening one if
not), registers the request under its transaction id and sends it. -/
def ceph_mdsc_do_request (mdsc : ceph_mds_client) (req : ceph_mds_request) (mds : Nat) :
    ceph_mds_client :=
  register_request (session_get_or_open mdsc mds) { req with r_session := some mds }

/-- Modelled from the spec: section 4.3, resend after session failure:
increments the attempt counter and re-sends to `r_resend_mds`. -/
def resend_request (mdsc : ceph_mds_client) (tid : Nat) : ceph_mds_client :=
  match lookup_request mdsc tid with
  | none => mdsc
  | some req =>
    { mdsc with request_tree :=
        update_request mdsc.request_tree tid { req with r_attempts := req.r_attempts + 1 } }

/-- The engine operations and inbound messages of a client: the entry points
that mds_client.h declares (the handlers of the six inbound message kinds,
lease_release, create_request, do_request, put_request, send_cap, drop_leases,
stop) and the operations of the Session Manager, the registry and the
maintenance task that the specification names.  `ceph_mdsc_init` makes the
client and is not a step of it. -/
inductive engine_event where
  | get_or_open (mds : Nat)
  | close (mds : Nat)
  | peer_restarted (mds : Nat)
  | connection_failed (mds : Nat)
  | retried (mds : Nat)
  | session (msg : session_msg)
  | filecaps (msg : filecaps_msg)
  | reply (msg : reply_msg)
  | forward (msg : forward_msg)
  | create (op : Int) (ino1 : Nat) (path1 : String) (ino2 : Nat) (path2 : String)
  | register (req : ceph_mds_request)
  | put (tid : Nat)
  | map (msg : map_msg)
  | lease (msg : lease_msg)
  | lease_release (inode dn : Nat) (mask : Int)
  | drop_leases
  | send_cap (mds : Nat) (cap : ceph_inode_cap) (used wanted cancel_work : Int)
  | renew_caps (mds now window : Nat)
  | delayed_work (now window : Nat)
  | do_request (req : ceph_mds_request) (mds : Nat)
  | resend (tid : Nat)
  | stop
deriving DecidableEq, Repr

/-- Effect of one engine event on the client, for a forward limit `max_fwd`. -/
def engine_step (max_fwd : Int) (mdsc : ceph_mds_client) : engine_event → ceph_mds_client
  | engine_event.get_or_open mds => session_get_or_open mdsc mds
  | engine_event.close mds => session_close mdsc mds
  | engine_event.peer_restarted mds => session_peer_restarted mdsc mds
  | engine_event.connection_failed mds => session_connection_failed mdsc mds
  | engine_event.retried mds => session_retried mdsc mds
  | engine_event.session msg => ceph_mdsc_handle_session mdsc msg
  | engine_event.filecaps msg => ceph_mdsc_handle_filecaps mdsc msg
  | engine_event.reply msg => ceph_mdsc_handle_reply mdsc msg
  | engine_event.forward msg => (ceph_mdsc_handle_forward max_fwd mdsc msg).1
  | engine_event.create op ino1 path1 ino2 path2 =>
      (ceph_mdsc_create_request mdsc op ino1 path1 ino2 path2).2
  | engine_event.register req => register_request mdsc req
  | engine_event.put tid => unregister_request mdsc tid
  | engine_event.map msg => ceph_mdsc_handle_map mdsc msg
  | engine_event.lease msg => ceph_mdsc_handle_lease mdsc msg
  | engine_event.lease_release inode dn mask => ceph_mdsc_lease_release mdsc inode dn mask
  | engine_event.drop_leases => ceph_mdsc_drop_leases mdsc
  | engine_event.send_cap mds cap used wanted cancel_work =>
      (ceph_mdsc_send_cap mdsc mds cap used wanted cancel_work).1
  | engine_event.renew_caps mds now window =>
      match get_session mdsc mds with
      | some s => set_session mdsc mds (session_renew_caps now window s)
      | none => mdsc
  | engine_event.delayed_work now window => delayed_work mdsc now window
  | engine_event.do_request req mds => ceph_mdsc_do_request mdsc req mds
  | engine_event.resend tid => resend_request mdsc tid
  | engine_event.stop => ceph_mdsc_stop mdsc

/-- What a session slot may become in one step: an absent session stays absent
or appears in OPENING (allocated in NEW and opened at once); a present session
stays present and its state is unchanged or moves along one edge. -/
def session_step_ok (before after : Option ceph_mds_session) : Prop :=
  match before, after with
  | none, none => True
  | none, some s => s.s_state = CEPH_MDS_SESSION_OPENING
  | some _, none => False
  | some s, some t => t.s_state = s.s_state ∨ session_edge s.s_state t.s_state = true

/-- Two session slots that agree on presence and on the state code. -/
def same_state (before after : Option ceph_mds_session) : Prop :=
  match before, after with
  | none, none => True
  | some s, some t => t.s_state = s.s_state
  | _, _ => False

/-- The clients a run of engine events goes through, oldest first. -/
def engine_trace (max_fwd : Int) (mdsc : ceph_mds_client) :
    List engine_event → List ceph_mds_client
  | [] => []
  | ev :: evs =>
    engine_step max_fwd mdsc ev :: engine_trace max_fwd (engine_step max_fwd mdsc ev) evs

/-- The states of the section 4.2 state machine, as the specification names
them: NEW, OPENING, OPEN, CLOSING, RECONNECTING, RESUMING. -/
inductive session_state where
  | NEW
  | OPENING
  | OPEN
  | CLOSING
  | RESUMING
  | RECONNECTING
deriving DecidableEq, Repr

/-- The code that the anonymous enum of mds_client.h gives to a state of the
state machine. -/
def session_state.code : session_state → Int
  | session_state.NEW => CEPH_MDS_SESSION_NEW
  | session_state.OPENING => CEPH_MDS_SESSION_OPENING
  | session_state.OPEN => CEPH_MDS_SESSION_OPEN
  | session_state.CLOSING => CEPH_MDS_SESSION_CLOSING
  | session_state.RESUMING => CEPH_MDS_SESSION_RESUMING
  | session_state.RECONNECTING => CEPH_MDS_SESSION_RECONNECTING

/-- The six state codes of mds_client.h, in the order of the enum. -/
def session_state_codes : List Int :=
  [CEPH_MDS_SESSION_NEW, CEPH_MDS_SESSION_OPENING, CEPH_MDS_SESSION_OPEN,
   CEPH_MDS_SESSION_CLOSING, CEPH_MDS_SESSION_RESUMING, CEPH_MDS_SESSION_RECONNECTING]

/-! ## osd/osd_types.h -/

/-- The comparison operators of `entity_name_t` that `osd_reqid_t` uses
(`operator==` and `operator<` of msg/msg_types.h, which is not part of the
sources). -/
structure entity_name_ops (N : Type) where
  eq : N → N → Bool
  lt : N → N → Bool

/-- The operators of `entity_name_t` form a strict total order with `==` as
equality. -/
def entity_name_ops.strict_total {N : Type} (ops : entity_name_ops N) : Prop :=
  (∀ a b, ops.eq a b = true ↔ a = b) ∧
  (∀ a, ops.lt a a = false) ∧
  (∀ a b c, ops.lt a b = true → ops.lt b c = true → ops.lt a c = true) ∧
  (∀ a b, a ≠ b → ops.lt a b = true ∨ ops.lt b a = true)

/-- Entity names numbered by natural numbers, with their usual order. -/
def numbered_names : entity_name_ops Nat :=
  { eq := fun a b => a == b, lt := fun a b => decide (a < b) }

/-- The `struct osd_reqid_t` of osd_types.h: caller name, `tid_t tid` (an
unsigned integer) and `int32_t inc`. -/
structure osd_reqid_t (N : Type) where
  name : N
  tid : Nat
  inc : Int
deriving DecidableEq, Repr

/-- The constructor `osd_reqid_t(const entity_name_t& a, int i, tid_t t) :
name(a), tid(t), inc(i)`. -/
def osd_reqid {N : Type} (a : N) (i : Int) (t : Nat) : osd_reqid_t N :=
  { name := a, tid := t, inc := i }

/-- The `operator==` on osd_reqid_t. -/
def osd_reqid_t.op_eq {N : Type} (ops : entity_name_ops N) (l r : osd_reqid_t N) : Bool :=
  ops.eq l.name r.name && decide (l.inc = r.inc) && decide (l.tid = r.tid)

/-- The `operator<` on osd_reqid_t. -/
def osd_reqid_t.op_lt {N : Type} (ops : entity_name_ops N) (l r : osd_reqid_t N) : Bool :=
  ops.lt l.name r.name || decide (l.inc < r.inc) ||
    (ops.eq l.name r.name && decide (l.inc = r.inc) && decide (l.tid < r.tid))

/-- The `operator<=` on osd_reqid_t. -/
def osd_reqid_t.op_le {N : Type} (ops : entity_name_ops N) (l r : osd_reqid_t N) : Bool :=
  ops.lt l.name r.name || decide (l.inc < r.inc) ||
    (ops.eq l.name r.name && decide (l.inc = r.inc) && decide (l.tid ≤ r.tid))

/-- The `operator>` on osd_reqid_t: `!(l <= r)`. -/
def osd_reqid_t.op_gt {N : Type} (ops : entity_name_ops N) (l r : osd_reqid_t N) : Bool :=
  !(osd_reqid_t.op_le ops l r)

/-- The `operator>=` on osd_reqid_t: `!(l < r)`. -/
def osd_reqid_t.op_ge {N : Type} (ops : entity_name_ops N) (l r : osd_reqid_t N) : Bool :=
  !(osd_reqid_t.op_lt ops l r)

/-- The `class eversion_t` of osd_types.h: `version_t version` first, `epoch_t
epoch` second, both unsigned integers. -/
structure eversion_t where
  version : Nat
  epoch : Nat
deriving DecidableEq, Repr

/-- The constructor `eversion_t(epoch_t e, version_t v) : version(v), epoch(e)`. -/
def eversion (e v : Nat) : eversion_t :=
  { version := v, epoch := e }

/-- The `operator==` on eversion_t. -/
def eversion_t.op_eq (l r : eversion_t) : Bool :=
  (l.epoch == r.epoch) && (l.version == r.version)

/-- The `operator!=` on eversion_t. -/
def eversion_t.op_ne (l r : eversion_t) : Bool :=
  (l.epoch != r.epoch) || (l.version != r.version)

/-- The `operator<` on eversion_t. -/
def eversion_t.op_lt (l r : eversion_t) : Bool :=
  if l.epoch == r.epoch then decide (l.version < r.version) else decide (l.epoch < r.epoch)

/-- The `operator<=` on eversion_t. -/
def eversion_t.op_le (l r : eversion_t) : Bool :=
  if l.epoch == r.epoch then decide (l.version ≤ r.version) else decide (l.epoch ≤ r.epoch)

/-- The `operator>` on eversion_t. -/
def eversion_t.op_gt (l r : eversion_t) : Bool :=
  if l.epoch == r.epoch then decide (l.version > r.version) else decide (l.epoch > r.epoch)

/-- The `operator>=` on eversion_t. -/
def eversion_t.op_ge (l r : eversion_t) : Bool :=
  if l.epoch == r.epoch then decide (l.version ≥ r.version) else decide (l.epoch ≥ r.epoch)

/-- PG_STATE_CREATING of osd_types.h. -/
def PG_STATE_CREATING : Nat := 1
/-- PG_STATE_ACTIVE of osd_types.h. -/
def PG_STATE_ACTIVE : Nat := 2
/-- PG_STATE_CLEAN of osd_types.h. -/
def PG_STATE_CLEAN : Nat := 4
/-- PG_STATE_CRASHED of osd_types.h. -/
def PG_STATE_CRASHED : Nat := 8
/-- PG_STATE_REPLAY of osd_types.h. -/
def PG_STATE_REPLAY : Nat := 16
/-- PG_STATE_STRAY of osd_types.h. -/
def PG_STATE_STRAY : Nat := 32
/-- PG_STATE_SPLITTING of osd_types.h. -/
def PG_STATE_SPLITTING : Nat := 64

/-- The 32-bit two's complement representation of a C `int`. -/
def int_bits (x : Int) : Nat := (x % 2 ^ 32).toNat

/-- The condition `state & FLAG` on a C `int`: the bitwise and of the
representation of `state` with the flag is not zero. -/
def flag_set (state : Int) (flag : Nat) : Bool :=
  (int_bits state &&& flag) != 0

/-- The call `std::string::resize(n)`: the first n characters, padded with NUL
characters when n is beyond the length. -/
def string_resize (st : String) (n : Nat) : String :=
  String.mk (st.data.take n ++ List.replicate (n - st.data.length) (Char.ofNat 0))

/-- One line `if (state & FLAG) st += "name+";` of pg_state_string, `c` being
the condition. -/
def append_if (c : Bool) (st : String) (s : String) : String :=
  if c then st ++ s else st

/-- The end of pg_state_string: `if (!st.length()) st = "inactive"; else
st.resize(st.length()-1); return st;`. -/
def trim_or_inactive (st : String) : String :=
  if st.length = 0 then "inactive" else string_resize st (st.length - 1)

/-- The function `pg_state_string(int state)` of osd_types.h. -/
def pg_state_string (state : Int) : String :=
  let st := ""
  let st := append_if (flag_set state PG_STATE_CREATING) st "creating+"
  let st := append_if (flag_set state PG_STATE_ACTIVE) st "active+"
  let st := append_if (flag_set state PG_STATE_CLEAN) st "clean+"
  let st := append_if (flag_set state PG_STATE_CRASHED) st "crashed+"
  let st := append_if (flag_set state PG_STATE_REPLAY) st "replay+"
  let st := append_if (flag_set state PG_STATE_STRAY) st "stray+"
  let st := append_if (flag_set state PG_STATE_SPLITTING) st "splitting+"
  trim_or_inactive st

/-- The seven flags with their names, in the fixed order creating, active,
clean, crashed, replay, stray, splitting. -/
def pg_state_flag_names : List (Nat × String) :=
  [(1, "creating"), (2, "active"), (4, "clean"), (8, "crashed"), (16, "replay"),
   (32, "stray"), (64, "splitting")]

/-- The names of the flags set in a state, taken in the fixed order: the
property stated for pg_state_string, written independently of its code. -/
def pg_state_set_names (state : Int) : List String :=
  (pg_state_flag_names.filter (fun p => flag_set state p.1)).map Prod.snd

/-! ## Example states -/

/-- A request as `ceph_mdsc_create_request` returns it from a client whose
counter stands at 6: transaction id 7, no forwards yet. -/
def example_request : ceph_mds_request :=
  (ceph_mdsc_create_request (registry_empty 6).mdsc 1 10 "/a/b" 0 "").1

/-- A session to rank 1 in state OPEN that holds one capability, for inode 9
with sequence 3. -/
def example_session : ceph_mds_session :=
  { new_session 1 with
    s_state := CEPH_MDS_SESSION_OPEN
    s_caps := [{ ino := 9, issued := 1, seq := 3 }]
    s_nr_caps := 1 }

/-- A client with a session to rank 1 and the example request registered. -/
def example_client : ceph_mds_client :=
  { mdsmap := { m_epoch := 1, m_ranks := [0, 1] }
    sessions := [none, some example_session]
    last_tid := 7
    request_tree := [(7, example_request)]
    last_requested_map := 0 }

/-- A run of a caller: two requests created, both submitted, the first one
released, a third request created. -/
def example_events : List registry_event :=
  [registry_event.create 1 10 "/a/b" 0 "", registry_event.create 2 11 "/c" 0 "",
   registry_event.submit 0, registry_event.submit 0, registry_event.put 42,
   registry_event.create 3 12 "/d" 13 "/e"]

/-! ## Theorems -/

/-! ### Request registry -/

theorem perm_cons_eraseIdx {α : Type} (l : List α) (i : Nat) (a : α)
    (h : l[i]? = some a) : List.Perm l (a :: l.eraseIdx i) := by
  induction l generalizing i with
  | nil => simp at h
  | cons b t ih =>
    cases i with
    | zero =>
      simp at h
      subst h
      simp
    | succ j =>
      simp at h
      have := ih j h
      simp only [List.eraseIdx_cons_succ]
      exact (List.Perm.cons b this).trans (List.Perm.swap a b _)

theorem create_request_tid (mdsc : ceph_mds_client) (op : Int) (ino1 : Nat)
    (path1 : String) (ino2 : Nat) (path2 : String) :
    (ceph_mdsc_create_request mdsc op ino1 path1 ino2 path2).1.r_tid = mdsc.last_tid + 1 ∧
    (ceph_mdsc_create_request mdsc op ino1 path1 ino2 path2).2.last_tid = mdsc.last_tid + 1 ∧
    (ceph_mdsc_create_request mdsc op ino1 path1 ino2 path2).2.request_tree
      = mdsc.request_tree := by
  simp [ceph_mdsc_create_request]

/-- In a well-formed registry the id of a request held by a caller is not a key
of the tree. -/
theorem held_tid_not_registered (s : registry_state) (hwf : registry_wf s)
    (req : ceph_mds_request) (hreq : req ∈ s.held) :
    ∀ e ∈ s.mdsc.request_tree, e.1 ≠ req.r_tid := by
  intro e he heq
  obtain ⟨hkey, hnd, _⟩ := hwf
  have hdis := (List.nodup_append.1 hnd).2.2
  have h1 : req.r_tid ∈ s.held.map (fun r => r.r_tid) := List.mem_map.2 ⟨req, hreq, rfl⟩
  have h2 : req.r_tid ∈ s.mdsc.request_tree.map (fun e => e.2.r_tid) :=
    List.mem_map.2 ⟨e, he, by rw [← hkey e he, heq]⟩
  exact hdis h1 h2

theorem register_held_adds (s : registry_state) (hwf : registry_wf s)
    (req : ceph_mds_request) (hreq : req ∈ s.held) :
    (register_request s.mdsc req).request_tree = (req.r_tid, req) :: s.mdsc.request_tree := by
  simp only [register_request]
  congr 1
  apply List.filter_eq_self.2
  intro e he
  simpa using held_tid_not_registered s hwf req hreq e he

theorem registry_step_wf (s : registry_state) (ev : registry_event)
    (hwf : registry_wf s) :
    registry_wf (registry_step s ev) ∧
    s.mdsc.last_tid + count_creates [ev] = (registry_step s ev).mdsc.last_tid := by
  have hwf0 := hwf
  obtain ⟨hkey, hnd, hle⟩ := hwf
  cases ev with
  | create op ino1 path1 ino2 path2 =>
    obtain ⟨h1, h2, h3⟩ := create_request_tid s.mdsc op ino1 path1 ino2 path2
    refine ⟨⟨?_, ?_, ?_⟩, ?_⟩
    · intro e he
      simp only [registry_step, h3] at he
      exact hkey e he
    · have hperm : List.Perm (live_tids (registry_step s
          (registry_event.create op ino1 path1 ino2 path2)))
          ((s.mdsc.last_tid + 1) :: live_tids s) := by
        simp only [live_tids, registry_step, h3, List.map_append, List.map_cons, List.map_nil, h1,
          List.append_assoc]
        exact (List.perm_middle).trans (by simp)
      refine (List.Perm.nodup_iff hperm).2 (List.nodup_cons.2 ⟨?_, hnd⟩)
      intro hmem
      have := hle _ hmem
      omega
    · intro t ht
      simp only [live_tids, registry_step, h3, List.map_append, List.map_cons, List.map_nil, h1,
        List.mem_append, List.mem_singleton, h2] at ht ⊢
      have hle' : ∀ t ∈ live_tids s, t ≤ s.mdsc.last_tid := hle
      simp only [live_tids, List.mem_append] at hle'
      rcases ht with (ht | ht) | ht
      · have := hle' t (Or.inl ht); omega
      · omega
      · have := hle' t (Or.inr ht); omega
    · simp [registry_step, h2, count_creates]
  | submit i =>
    cases hget : s.held[i]? with
    | none =>
      simp [registry_step, hget, count_creates]
      exact ⟨hkey, hnd, hle⟩
    | some req =>
      have hmem : req ∈ s.held := List.mem_iff_getElem?.2 ⟨i, hget⟩
      have htree := register_held_adds s hwf0 req hmem
      have hlast : (register_request s.mdsc req).last_tid = s.mdsc.last_tid := rfl
      have hperm : List.Perm (live_tids (registry_step s (registry_event.submit i)))
          (live_tids s) := by
        simp only [live_tids, registry_step, List.get?_eq_getElem?, hget, htree,
          List.map_cons]
        have hp := (perm_cons_eraseIdx s.held i req hget).map (fun r => r.r_tid)
        simp only [List.map_cons] at hp
        exact (List.perm_middle).trans ((hp.append_right _).symm)
      refine ⟨⟨?_, ?_, ?_⟩, ?_⟩
      · intro e he
        simp only [registry_step, List.get?_eq_getElem?, hget, htree,
          List.mem_cons] at he
        rcases he with he | he
        · subst he; rfl
        · exact hkey e he
      · exact (List.Perm.nodup_iff hperm).2 hnd
      · intro t ht
        have := hle t (hperm.subset ht)
        simpa [registry_step, hget, hlast] using this
      · simp [registry_step, hget, hlast, count_creates]
  | put tid =>
    have hsub : List.Sublist (live_tids (registry_step s (registry_event.put tid)))
        (live_tids s) := by
      simp only [live_tids, registry_step, unregister_request]
      exact List.Sublist.append (List.Sublist.refl _)
        ((List.filter_sublist _).map _)
    refine ⟨⟨?_, ?_, ?_⟩, ?_⟩
    · intro e he
      simp only [registry_step, unregister_request] at he
      exact hkey e (List.mem_of_mem_filter he)
    · exact hnd.sublist hsub
    · intro t ht
      have := hle t (hsub.subset ht)
      simpa [registry_step, unregister_request] using this
    · simp [registry_step, unregister_request, count_creates]

theorem count_creates_cons (ev : registry_event) (evs : List registry_event) :
    count_creates (ev :: evs) = count_creates [ev] + count_creates evs := by
  cases ev <;> simp [count_creates]; omega

theorem assigned_tids_bounds (evs : List registry_event) :
    ∀ s : registry_state, registry_wf s →
      List.Pairwise (fun a b => a < b) (assigned_tids s evs) ∧
      (∀ u ∈ assigned_tids s evs, s.mdsc.last_tid < u) ∧
      registry_wf (registry_run s evs) ∧
      s.mdsc.last_tid + count_creates evs = (registry_run s evs).mdsc.last_tid := by
  induction evs with
  | nil =>
    intro s hwf
    simp [assigned_tids, registry_run, hwf, count_creates]
  | cons ev evs ih =>
    intro s hwf
    obtain ⟨hwf1, hlast⟩ := registry_step_wf s ev hwf
    obtain ⟨hpw, hgt, hfin, hcnt⟩ := ih (registry_step s ev) hwf1
    have hmono : s.mdsc.last_tid ≤ (registry_step s ev).mdsc.last_tid := by omega
    refine ⟨?_, ?_, ?_, ?_⟩
    · cases ev with
      | create op ino1 path1 ino2 path2 =>
        simp only [assigned_tids]
        have h1 := (create_request_tid s.mdsc op ino1 path1 ino2 path2).1
        have h2 := (create_request_tid s.mdsc op ino1 path1 ino2 path2).2.1
        refine List.pairwise_cons.2 ⟨fun u hu => ?_, hpw⟩
        have := hgt u hu
        simp only [registry_step] at this
        omega
      | submit i => simpa only [assigned_tids] using hpw
      | put tid => simpa only [assigned_tids] using hpw
    · intro u hu
      cases ev with
      | create op ino1 path1 ino2 path2 =>
        simp only [assigned_tids, List.mem_cons] at hu
        rcases hu with hu | hu
        · subst hu
          have h1 := (create_request_tid s.mdsc op ino1 path1 ino2 path2).1
          omega
        · exact lt_of_le_of_lt hmono (hgt u hu)
      | submit i =>
        simp only [assigned_tids] at hu
        exact lt_of_le_of_lt hmono (hgt u hu)
      | put tid =>
        simp only [assigned_tids] at hu
        exact lt_of_le_of_lt hmono (hgt u hu)
    · simpa [registry_run] using hfin
    · have : registry_run s (ev :: evs) = registry_run (registry_step s ev) evs := by
        simp [registry_run]
      rw [this, count_creates_cons]
      omega

theorem registry_empty_wf (last : Nat) : registry_wf (registry_empty last) := by
  simp [registry_wf, registry_empty, live_tids]

/-- C1. From a well-formed registry (live ids distinct and not above last_tid,
as with nothing live), over every sequence of create / submit / put events:
the ids handed out by ceph_mdsc_create_request are strictly increasing, each is
strictly greater than last_tid as it stood before the run and than every id that
was live then, and last_tid goes up by one with each create; at the end the
registry is again well-formed, so no two live requests share a transaction id,
the keys of request_tree are pairwise different, every registered request sits
under its own r_tid, and the id of a request still held by its caller is free in
the tree. The same holds from a client with nothing live, whatever its counter. -/
theorem C1_create_request_tids_strictly_increase (s : registry_state)
    (evs : List registry_event) (hwf : registry_wf s) :
    List.Pairwise (fun a b => a < b) (assigned_tids s evs) ∧
    (∀ u ∈ assigned_tids s evs, s.mdsc.last_tid < u) ∧
    (∀ t ∈ live_tids s, ∀ u ∈ assigned_tids s evs, t < u) ∧
    (registry_run s evs).mdsc.last_tid = s.mdsc.last_tid + count_creates evs ∧
    (live_tids (registry_run s evs)).Nodup ∧
    ((registry_run s evs).mdsc.request_tree.map Prod.fst).Nodup ∧
    (∀ e ∈ (registry_run s evs).mdsc.request_tree, e.1 = e.2.r_tid) ∧
    (∀ req ∈ (registry_run s evs).held,
      lookup_request (registry_run s evs).mdsc req.r_tid = none) ∧
    (∀ last : Nat,
      List.Pairwise (fun a b => a < b) (assigned_tids (registry_empty last) evs) ∧
      (∀ u ∈ assigned_tids (registry_empty last) evs, last < u) ∧
      (live_tids (registry_run (registry_empty last) evs)).Nodup) := by
  obtain ⟨hpw, hgt, hfin, hcnt⟩ := assigned_tids_bounds evs s hwf
  have hnd : ((registry_run s evs).mdsc.request_tree.map (fun e => e.2.r_tid)).Nodup := by
    have := hfin.2.1
    simp only [live_tids] at this
    exact (List.nodup_append.1 this).2.1
  have heq : (registry_run s evs).mdsc.request_tree.map Prod.fst
      = (registry_run s evs).mdsc.request_tree.map (fun e => e.2.r_tid) :=
    List.map_congr_left (fun e he => hfin.1 e he)
  refine ⟨hpw, hgt, fun t ht u hu => lt_of_le_of_lt (hwf.2.2 t ht) (hgt u hu), hcnt.symm,
    hfin.2.1, by rw [heq]; exact hnd, hfin.1, ?_, ?_⟩
  · intro req hreq
    unfold lookup_request
    simp only [Option.map_eq_none', List.find?_eq_none]
    intro e he
    simpa using held_tid_not_registered _ hfin req hreq e he
  · intro last
    obtain ⟨hpw', hgt', hfin', _⟩ :=
      assigned_tids_bounds evs (registry_empty last) (registry_empty_wf last)
    exact ⟨hpw', hgt', hfin'.2.1⟩

/-- Witness for C1: three requests created from an empty registry whose counter
stands at 41, two of them submitted and one released. -/
theorem C1_create_request_tids_strictly_increase_witness :
    registry_wf (registry_empty 41) ∧
    assigned_tids (registry_empty 41) example_events = [42, 43, 44] ∧
    List.Pairwise (fun a b => a < b) (assigned_tids (registry_empty 41) example_events) ∧
    (live_tids (registry_run (registry_empty 41) example_events)).Nodup :=
  ⟨registry_empty_wf 41, by decide,
   (C1_create_request_tids_strictly_increase (registry_empty 41) example_events
      (registry_empty_wf 41)).1,
   (C1_create_request_tids_strictly_increase (registry_empty 41) example_events
      (registry_empty_wf 41)).2.2.2.2.1⟩

/-! ### Capability messages -/

theorem get_session_set_same (mdsc : ceph_mds_client) (mds : Nat) (s0 s : ceph_mds_session)
    (h : get_session mdsc mds = some s0) :
    get_session (set_session mdsc mds s) mds = some s := by
  unfold get_session set_session at *
  have hlt : mds < mdsc.sessions.length := by
    by_contra hge
    rw [List.getD_eq_default _ _ (by omega)] at h
    exact Option.noConfusion h
  simp [List.getD_eq_getElem?_getD, hlt]

theorem get_session_set_ne (mdsc : ceph_mds_client) (mds mds' : Nat) (s : ceph_mds_session)
    (h : mds' ≠ mds) :
    get_session (set_session mdsc mds s) mds' = get_session mdsc mds' := by
  unfold get_session set_session
  simp [List.getD_eq_getElem?_getD, List.getElem?_set, Ne.symm h]

theorem find_cap_cons (a : ceph_inode_cap) (t : List ceph_inode_cap) (ino : Nat) :
    find_cap (a :: t) ino = if a.ino = ino then some a else find_cap t ino := by
  by_cases h : a.ino = ino <;> simp [find_cap, List.find?_cons, h]

theorem update_cap_cons (a : ceph_inode_cap) (t : List ceph_inode_cap) (ino seq bits : Nat) :
    update_cap (a :: t) ino seq bits =
      (if a.ino = ino then { a with issued := bits, seq := seq } else a)
        :: update_cap t ino seq bits := by
  by_cases h : a.ino = ino <;> simp [update_cap, h]

theorem find_cap_update_same (caps : List ceph_inode_cap) (ino seq bits : Nat)
    (c : ceph_inode_cap) (h : find_cap caps ino = some c) :
    find_cap (update_cap caps ino seq bits) ino = some { c with issued := bits, seq := seq } := by
  induction caps with
  | nil => simp [find_cap] at h
  | cons a t ih =>
    rw [find_cap_cons] at h
    rw [update_cap_cons, find_cap_cons]
    by_cases ha : a.ino = ino
    · rw [if_pos ha] at h
      rw [if_pos ha, if_pos ha]
      cases h
      rfl
    · rw [if_neg ha] at h
      rw [if_neg ha, if_neg ha]
      exact ih h

theorem find_cap_update_ne (caps : List ceph_inode_cap) (ino ino' seq bits : Nat)
    (h : ino' ≠ ino) :
    find_cap (update_cap caps ino seq bits) ino' = find_cap caps ino' := by
  induction caps with
  | nil => simp [find_cap, update_cap]
  | cons a t ih =>
    rw [update_cap_cons, find_cap_cons, find_cap_cons]
    by_cases ha : a.ino = ino
    · have hb : ¬ a.ino = ino' := fun h' => h (h'.symm.trans ha)
      rw [if_pos ha]
      simp only [hb, if_false]
      exact ih
    · rw [if_neg ha]
      by_cases hb : a.ino = ino'
      · simp only [hb, if_true]
      · simp only [hb, if_false]
        exact ih

theorem find_cap_append_none (caps : List ceph_inode_cap) (ino ino' : Nat)
    (n : ceph_inode_cap) (hn : n.ino = ino) (h : find_cap caps ino = none) :
    find_cap (caps ++ [n]) ino' = if ino' = ino then some n else find_cap caps ino' := by
  induction caps with
  | nil =>
    simp only [List.nil_append, find_cap_cons, hn]
    by_cases h' : ino' = ino
    · simp [h']
    · simp [h', Ne.symm h', find_cap]
  | cons a t ih =>
    rw [find_cap_cons] at h
    rw [List.cons_append, find_cap_cons, find_cap_cons]
    by_cases ha : a.ino = ino
    · rw [if_pos ha] at h
      exact Option.noConfusion h
    · rw [if_neg ha] at h
      by_cases hb : a.ino = ino'
      · have : ¬ ino' = ino := fun h' => ha (hb.trans h')
        simp only [hb, if_true, this, if_false]
      · simp only [hb, if_false]
        exact ih h

theorem lookup_cap_set_same (mdsc : ceph_mds_client) (mds ino : Nat)
    (s0 s : ceph_mds_session) (h : get_session mdsc mds = some s0) :
    lookup_cap (set_session mdsc mds s) mds ino = find_cap s.s_caps ino := by
  simp only [lookup_cap, get_session_set_same mdsc mds s0 s h]

theorem lookup_cap_set_ne (mdsc : ceph_mds_client) (mds mds' ino : Nat)
    (s : ceph_mds_session) (h : mds' ≠ mds) :
    lookup_cap (set_session mdsc mds s) mds' ino = lookup_cap mdsc mds' ino := by
  simp only [lookup_cap, get_session_set_ne mdsc mds mds' s h]

/-- One capability message never lowers the sequence stored for any (inode,
session) pair, and leaves the record untouched unless the sequence goes up. -/
theorem handle_filecaps_mono (mdsc : ceph_mds_client) (msg : filecaps_msg) (mds ino : Nat)
    (c : ceph_inode_cap) (h : lookup_cap mdsc mds ino = some c) :
    ∃ c', lookup_cap (ceph_mdsc_handle_filecaps mdsc msg) mds ino = some c' ∧
      c.seq ≤ c'.seq ∧ (c'.seq = c.seq → c' = c) := by
  unfold ceph_mdsc_handle_filecaps
  cases hs : get_session mdsc msg.mds with
  | none => exact ⟨c, h, le_refl _, fun _ => rfl⟩
  | some s =>
    simp only
    by_cases hm : mds = msg.mds
    · have hfc : find_cap s.s_caps ino = some c := by
        rw [hm] at h
        simpa [lookup_cap, hs] using h
      rw [hm]
      cases hf : find_cap s.s_caps msg.ino with
      | none =>
        simp only
        have hne : ino ≠ msg.ino := by
          intro he; rw [he] at hfc; rw [hfc] at hf; exact Option.noConfusion hf
        refine ⟨c, ?_, le_refl _, fun _ => rfl⟩
        rw [lookup_cap_set_same mdsc msg.mds ino s _ hs]
        simp only
        rw [find_cap_append_none s.s_caps msg.ino ino _ rfl hf, if_neg hne]
        exact hfc
      | some d =>
        simp only
        by_cases hlt : d.seq < msg.seq
        · rw [if_pos hlt, lookup_cap_set_same mdsc msg.mds ino s _ hs]
          simp only
          by_cases hi : ino = msg.ino
          · rw [hi] at hfc
            rw [hfc] at hf
            cases hf
            rw [hi, find_cap_update_same s.s_caps msg.ino msg.seq msg.caps c hfc]
            exact ⟨_, rfl, le_of_lt hlt, fun he => absurd he (ne_of_gt hlt)⟩
          · rw [find_cap_update_ne s.s_caps msg.ino ino msg.seq msg.caps hi]
            exact ⟨c, hfc, le_refl _, fun _ => rfl⟩
        · rw [if_neg hlt, ← hm]
          exact ⟨c, h, le_refl _, fun _ => rfl⟩
    · refine ⟨c, ?_, le_refl _, fun _ => rfl⟩
      have hkeep : ∀ s', lookup_cap (set_session mdsc msg.mds s') mds ino = some c := by
        intro s'
        rw [lookup_cap_set_ne mdsc msg.mds mds ino s' hm]
        exact h
      cases hf : find_cap s.s_caps msg.ino with
      | none => exact hkeep _
      | some d =>
        simp only
        by_cases hlt : d.seq < msg.seq
        · rw [if_pos hlt]; exact hkeep _
        · rw [if_neg hlt]; exact h

theorem handle_filecaps_all_mono (msgs : List filecaps_msg) :
    ∀ (mdsc : ceph_mds_client) (mds ino : Nat) (c : ceph_inode_cap),
      lookup_cap mdsc mds ino = some c →
      ∃ c', lookup_cap (handle_filecaps_all mdsc msgs) mds ino = some c' ∧
        c.seq ≤ c'.seq ∧ (c'.seq = c.seq → c' = c) := by
  induction msgs with
  | nil => intro mdsc mds ino c h; exact ⟨c, h, le_refl _, fun _ => rfl⟩
  | cons m rest ih =>
    intro mdsc mds ino c h
    obtain ⟨c1, h1, hle1, heq1⟩ := handle_filecaps_mono mdsc m mds ino c h
    obtain ⟨c2, h2, hle2, heq2⟩ := ih (ceph_mdsc_handle_filecaps mdsc m) mds ino c1 h1
    refine ⟨c2, ?_, le_trans hle1 hle2, ?_⟩
    · simpa [handle_filecaps_all] using h2
    · intro he
      have e1 : c1.seq = c.seq := by omega
      have e2 : c2.seq = c1.seq := by omega
      rw [heq2 e2, heq1 e1]

theorem handle_filecaps_stale (mdsc : ceph_mds_client) (msg : filecaps_msg)
    (c : ceph_inode_cap) (h : lookup_cap mdsc msg.mds msg.ino = some c)
    (hseq : msg.seq ≤ c.seq) : ceph_mdsc_handle_filecaps mdsc msg = mdsc := by
  unfold ceph_mdsc_handle_filecaps
  unfold lookup_cap at h
  cases hs : get_session mdsc msg.mds with
  | none => rfl
  | some s =>
    rw [hs] at h
    simp only at h ⊢
    rw [h]
    simp only
    rw [if_neg (by omega)]

/-- C2. For a session `s` at rank `mds` and an inode `ino`: (1) a capability
message whose sequence number is not strictly greater than the one stored for
(ino, mds) is dropped by ceph_mdsc_handle_filecaps, the whole client staying as
it was; (2) over every sequence of capability messages the stored sequence never
decreases, and the record (granted bits included) is the same whenever the
sequence is the same; (3) when the stored sequence is below 7 or nothing is
stored, a message with sequence 7 followed by one with sequence 5 leaves
sequence 7 and the bits granted by the sequence-7 message. -/
theorem C2_stale_cap_message_dropped (mdsc : ceph_mds_client) (mds ino : Nat)
    (s : ceph_mds_session) (hs : get_session mdsc mds = some s) :
    (∀ c seq bits, find_cap s.s_caps ino = some c → seq ≤ c.seq →
      ceph_mdsc_handle_filecaps mdsc { mds := mds, ino := ino, seq := seq, caps := bits }
        = mdsc) ∧
    (∀ c msgs, find_cap s.s_caps ino = some c →
      ∃ c', lookup_cap (handle_filecaps_all mdsc msgs) mds ino = some c' ∧
        c.seq ≤ c'.seq ∧ (c'.seq = c.seq → c' = c)) ∧
    ((∀ c, find_cap s.s_caps ino = some c → c.seq < 7) →
      ∀ b7 b5,
        lookup_cap (handle_filecaps_all mdsc
          [{ mds := mds, ino := ino, seq := 7, caps := b7 },
           { mds := mds, ino := ino, seq := 5, caps := b5 }]) mds ino
          = some { ino := ino, issued := b7, seq := 7 }) := by
  have hl : lookup_cap mdsc mds ino = find_cap s.s_caps ino := by
    simp only [lookup_cap, hs]
  refine ⟨?_, ?_, ?_⟩
  · intro c seq bits hc hseq
    exact handle_filecaps_stale mdsc _ c (by rw [hl]; exact hc) hseq
  · intro c msgs hc
    exact handle_filecaps_all_mono msgs mdsc mds ino c (by rw [hl]; exact hc)
  · intro hlow b7 b5
    have h7 : lookup_cap (ceph_mdsc_handle_filecaps mdsc
        { mds := mds, ino := ino, seq := 7, caps := b7 }) mds ino
        = some { ino := ino, issued := b7, seq := 7 } := by
      unfold ceph_mdsc_handle_filecaps
      simp only [hs]
      cases hf : find_cap s.s_caps ino with
      | none =>
        simp only
        rw [lookup_cap_set_same mdsc mds ino s _ hs]
        simp only
        rw [find_cap_append_none s.s_caps ino ino _ rfl hf, if_pos rfl]
      | some d =>
        simp only
        rw [if_pos (hlow d hf), lookup_cap_set_same mdsc mds ino s _ hs]
        simp only
        rw [find_cap_update_same s.s_caps ino 7 b7 d hf]
        have hd : d.ino = ino := by
          have := List.find?_some hf
          simpa using this
        rw [hd]
    have h5 := handle_filecaps_stale (ceph_mdsc_handle_filecaps mdsc
        { mds := mds, ino := ino, seq := 7, caps := b7 })
        { mds := mds, ino := ino, seq := 5, caps := b5 } _ h7 (by simp)
    simp only [handle_filecaps_all, List.foldl_cons, List.foldl_nil]
    rw [h5]
    exact h7


/-- Witness for C2: the example client, whose session at rank 1 holds inode 9
at sequence 3, handles a message with sequence 7 and then one with sequence
5. -/
theorem C2_stale_cap_message_dropped_witness :
    get_session example_client 1 = some example_session ∧
    ceph_mdsc_handle_filecaps example_client { mds := 1, ino := 9, seq := 3, caps := 6 }
      = example_client ∧
    lookup_cap (handle_filecaps_all example_client
        [{ mds := 1, ino := 9, seq := 7, caps := 6 },
         { mds := 1, ino := 9, seq := 5, caps := 2 }]) 1 9
      = some { ino := 9, issued := 6, seq := 7 } :=
  ⟨by decide,
   (C2_stale_cap_message_dropped example_client 1 9 example_session (by decide)).1
      { ino := 9, issued := 1, seq := 3 } 3 6 (by decide) (by decide),
   (C2_stale_cap_message_dropped example_client 1 9 example_session (by decide)).2.2
      (by decide) 6 2⟩

/-! ### Forwards and replies -/

theorem session_step_ok_refl (o : Option ceph_mds_session) : session_step_ok o o := by
  cases o with
  | none => exact True.intro
  | some s => exact Or.inl rfl

theorem same_state_refl (o : Option ceph_mds_session) : same_state o o := by
  cases o with
  | none => exact True.intro
  | some s => exact rfl

theorem same_state_trans (a b c : Option ceph_mds_session)
    (h1 : same_state a b) (h2 : same_state b c) : same_state a c := by
  cases a <;> cases b <;> cases c <;> simp_all [same_state]

theorem same_state_ok (a b : Option ceph_mds_session) (h : same_state a b) :
    session_step_ok a b := by
  cases a <;> cases b <;> simp_all [same_state, session_step_ok]

theorem get_session_set_state (mdsc : ceph_mds_client) (mds mds' : Nat)
    (s : ceph_mds_session) (st : Int) (hs : get_session mdsc mds = some s) :
    get_session (set_state mdsc mds s st) mds' =
      if mds' = mds then some { s with s_state := st } else get_session mdsc mds' := by
  unfold set_state
  by_cases h : mds' = mds
  · rw [if_pos h, h]
    exact get_session_set_same mdsc mds s _ hs
  · rw [if_neg h]
    exact get_session_set_ne mdsc mds mds' _ h

/-- Storing a state reached by an edge (or the same state) in one session is a
legal step for every slot. -/
theorem set_state_ok (mdsc : ceph_mds_client) (mds mds' : Nat) (s : ceph_mds_session)
    (st : Int) (hs : get_session mdsc mds = some s)
    (hedge : st = s.s_state ∨ session_edge s.s_state st = true) :
    session_step_ok (get_session mdsc mds') (get_session (set_state mdsc mds s st) mds') := by
  rw [get_session_set_state mdsc mds mds' s st hs]
  by_cases h : mds' = mds
  · rw [if_pos h, h, hs]
    exact hedge
  · rw [if_neg h]
    exact session_step_ok_refl _

theorem handle_filecaps_same_state (mdsc : ceph_mds_client) (msg : filecaps_msg) (mds : Nat) :
    same_state (get_session mdsc mds) (get_session (ceph_mdsc_handle_filecaps mdsc msg) mds) := by
  unfold ceph_mdsc_handle_filecaps
  cases hs : get_session mdsc msg.mds with
  | none => exact same_state_refl _
  | some s =>
    have hset : ∀ s' : ceph_mds_session, s'.s_state = s.s_state →
        same_state (get_session mdsc mds) (get_session (set_session mdsc msg.mds s') mds) := by
      intro s' hst
      by_cases h : mds = msg.mds
      · rw [h, get_session_set_same mdsc msg.mds s s' hs, hs]
        exact hst
      · rw [get_session_set_ne mdsc msg.mds mds s' h]
        exact same_state_refl _
    simp only
    cases hf : find_cap s.s_caps msg.ino with
    | none => exact hset _ rfl
    | some d =>
      simp only
      by_cases hlt : d.seq < msg.seq
      · rw [if_pos hlt]; exact hset _ rfl
      · rw [if_neg hlt]; exact same_state_refl _

theorem handle_filecaps_all_same_state (msgs : List filecaps_msg) :
    ∀ (mdsc : ceph_mds_client) (mds : Nat),
      same_state (get_session mdsc mds) (get_session (handle_filecaps_all mdsc msgs) mds) := by
  induction msgs with
  | nil => intro mdsc mds; exact same_state_refl _
  | cons m rest ih =>
    intro mdsc mds
    exact same_state_trans _ _ _ (handle_filecaps_same_state mdsc m mds)
      (ih (ceph_mdsc_handle_filecaps mdsc m) mds)

theorem get_session_pad (l : List (Option ceph_mds_session)) (k i : Nat)
    (mdsc : ceph_mds_client) (h : mdsc.sessions = l) :
    get_session { mdsc with sessions := l ++ List.replicate k none } i = get_session mdsc i := by
  unfold get_session
  simp only [h, List.getD_eq_getElem?_getD, List.getElem?_append]
  by_cases hi : i < l.length
  · simp [hi]
  · simp only [hi, if_false, List.getElem?_replicate]
    rw [List.getElem?_eq_none (by omega)]
    split <;> rfl

/-- Storing a record with a state reached by an edge from the state of the
stored session (or with the same state) is a legal step for every slot. -/
theorem set_state_ok_from (mdsc : ceph_mds_client) (mds mds' : Nat)
    (s0 s : ceph_mds_session) (st : Int) (hs : get_session mdsc mds = some s0)
    (hedge : st = s0.s_state ∨ session_edge s0.s_state st = true) :
    session_step_ok (get_session mdsc mds') (get_session (set_state mdsc mds s st) mds') := by
  unfold set_state
  by_cases h : mds' = mds
  · rw [h, get_session_set_same mdsc mds s0 _ hs, hs]
    exact hedge
  · rw [get_session_set_ne mdsc mds mds' _ h]
    exact session_step_ok_refl _

theorem set_session_same_state (mdsc : ceph_mds_client) (mds mds' : Nat)
    (s0 s : ceph_mds_session) (hs : get_session mdsc mds = some s0)
    (hst : s.s_state = s0.s_state) :
    session_step_ok (get_session mdsc mds') (get_session (set_session mdsc mds s) mds') := by
  by_cases h : mds' = mds
  · rw [h, get_session_set_same mdsc mds s0 _ hs, hs]
    exact Or.inl hst
  · rw [get_session_set_ne mdsc mds mds' _ h]
    exact session_step_ok_refl _

theorem get_session_map_sessions (f : ceph_mds_session → ceph_mds_session)
    (mdsc : ceph_mds_client) (i : Nat) :
    get_session (map_sessions f mdsc) i = (get_session mdsc i).map f := by
  unfold get_session map_sessions
  simp only [List.getD_eq_getElem?_getD, List.getElem?_map]
  cases mdsc.sessions[i]? with
  | none => rfl
  | some o => rfl

/-- A change applied to every session that keeps each state or moves it along
an edge is a legal step for every slot. -/
theorem map_sessions_ok (f : ceph_mds_session → ceph_mds_session)
    (hf : ∀ s, (f s).s_state = s.s_state ∨ session_edge s.s_state (f s).s_state = true)
    (mdsc : ceph_mds_client) (i : Nat) :
    session_step_ok (get_session mdsc i) (get_session (map_sessions f mdsc) i) := by
  rw [get_session_map_sessions]
  cases get_session mdsc i with
  | none => exact True.intro
  | some s => exact hf s

theorem close_session_edge (s : ceph_mds_session) :
    (close_session s).s_state = s.s_state ∨
      session_edge s.s_state (close_session s).s_state = true := by
  unfold close_session
  by_cases h : s.s_state = CEPH_MDS_SESSION_OPEN
  · rw [if_pos h]
    right
    simp only [h]
    decide
  · rw [if_neg h]
    exact Or.inl rfl

theorem renew_caps_state (now window : Nat) (s : ceph_mds_session) :
    (session_renew_caps now window s).s_state = s.s_state := by
  unfold session_renew_caps
  split <;> rfl

theorem apply_lease_state (s : ceph_mds_session) (msg : lease_msg) :
    (apply_lease s msg).s_state = s.s_state := by
  unfold apply_lease
  split
  · split <;> rfl
  · split
    · split <;> rfl
    · rfl

theorem get_or_open_ok (mdsc : ceph_mds_client) (r mds : Nat) :
    session_step_ok (get_session mdsc mds) (get_session (session_get_or_open mdsc r) mds) := by
  simp only [session_get_or_open]
  cases hs : get_session mdsc r with
  | some s =>
    simp only
    by_cases hst : s.s_state = CEPH_MDS_SESSION_NEW
    · rw [if_pos hst]
      exact set_state_ok mdsc r mds s _ hs (Or.inr (by rw [hst]; decide))
    · rw [if_neg hst]; exact session_step_ok_refl _
  | none =>
    simp only [set_state]
    by_cases h : mds = r
    · have hlen : r < (mdsc.sessions ++
          List.replicate (r + 1 - mdsc.sessions.length) none).length := by
        simp only [List.length_append, List.length_replicate]
        omega
      rw [h, hs]
      unfold get_session set_session
      simp only [List.getD_eq_getElem?_getD, List.getElem?_set, hlen, if_true]
      rfl
    · rw [get_session_set_ne _ r mds _ h, get_session_pad mdsc.sessions _ mds mdsc rfl]
      exact session_step_ok_refl _

theorem session_step_each (max_fwd : Int) (mdsc : ceph_mds_client) (ev : engine_event)
    (mds : Nat) :
    session_step_ok (get_session mdsc mds) (get_session (engine_step max_fwd mdsc ev) mds) := by
  cases ev with
  | get_or_open r => exact get_or_open_ok mdsc r mds
  | close r =>
    simp only [engine_step, session_close]
    cases hs : get_session mdsc r with
    | some s =>
      simp only
      by_cases hst : s.s_state = CEPH_MDS_SESSION_OPEN
      · rw [if_pos hst]
        exact set_state_ok_from mdsc r mds s _ _ hs (Or.inr (by rw [hst]; decide))
      · rw [if_neg hst]; exact session_step_ok_refl _
    | none => exact session_step_ok_refl _
  | peer_restarted r =>
    simp only [engine_step, session_peer_restarted]
    cases hs : get_session mdsc r with
    | some s =>
      simp only
      by_cases hst : s.s_state = CEPH_MDS_SESSION_OPEN
      · rw [if_pos hst]
        exact set_state_ok_from mdsc r mds s _ _ hs (Or.inr (by rw [hst]; decide))
      · rw [if_neg hst]; exact session_step_ok_refl _
    | none => exact session_step_ok_refl _
  | connection_failed r =>
    simp only [engine_step, session_connection_failed]
    cases hs : get_session mdsc r with
    | some s =>
      exact set_state_ok mdsc r mds s _ hs (Or.inr (by simp [session_edge]))
    | none => exact session_step_ok_refl _
  | retried r =>
    simp only [engine_step, session_retried]
    cases hs : get_session mdsc r with
    | some s =>
      simp only
      by_cases hst : s.s_state = CEPH_MDS_SESSION_RESUMING
      · rw [if_pos hst]
        exact set_state_ok mdsc r mds s _ hs (Or.inr (by rw [hst]; decide))
      · rw [if_neg hst]; exact session_step_ok_refl _
    | none => exact session_step_ok_refl _
  | session msg =>
    simp only [engine_step, ceph_mdsc_handle_session]
    cases hs : get_session mdsc msg.mds with
    | none => exact session_step_ok_refl _
    | some s =>
      simp only
      cases msg.op with
      | open_ack =>
        simp only
        by_cases hst : s.s_state = CEPH_MDS_SESSION_OPENING
        · rw [if_pos hst]
          exact set_state_ok mdsc msg.mds mds s _ hs (Or.inr (by rw [hst]; decide))
        · rw [if_neg hst]; exact session_step_ok_refl _
      | close_ack =>
        simp only
        by_cases hst : s.s_state = CEPH_MDS_SESSION_CLOSING
        · rw [if_pos hst]
          exact set_state_ok mdsc msg.mds mds s _ hs (Or.inr (by rw [hst]; decide))
        · rw [if_neg hst]; exact session_step_ok_refl _
      | reconnect_ack =>
        simp only
        by_cases hst : s.s_state = CEPH_MDS_SESSION_RECONNECTING
        · rw [if_pos hst]
          exact set_state_ok mdsc msg.mds mds s _ hs (Or.inr (by rw [hst]; decide))
        · rw [if_neg hst]; exact session_step_ok_refl _
  | filecaps msg =>
    exact same_state_ok _ _ (handle_filecaps_same_state mdsc msg mds)
  | reply msg =>
    simp only [engine_step, ceph_mdsc_handle_reply]
    cases lookup_request mdsc msg.tid with
    | none => exact session_step_ok_refl _
    | some req =>
      simp only
      split
      · exact same_state_ok _ _ (handle_filecaps_all_same_state msg.grants mdsc mds)
      · exact session_step_ok_refl _
  | forward msg =>
    simp only [engine_step, ceph_mdsc_handle_forward]
    cases lookup_request mdsc msg.tid with
    | none => exact session_step_ok_refl _
    | some req =>
      simp only
      split <;> exact session_step_ok_refl _
  | create op ino1 path1 ino2 path2 => exact session_step_ok_refl _
  | register req => exact session_step_ok_refl _
  | put tid => exact session_step_ok_refl _
  | map msg =>
    simp only [engine_step, ceph_mdsc_handle_map]
    split
    · exact map_sessions_ok _ (fun s => by
        by_cases h : s.s_mds ∈ msg.ranks
        · rw [if_pos h]; exact Or.inl rfl
        · rw [if_neg h]; exact close_session_edge s) _ mds
    · exact session_step_ok_refl _
  | lease msg =>
    simp only [engine_step, ceph_mdsc_handle_lease]
    cases hs : get_session mdsc msg.mds with
    | none => exact session_step_ok_refl _
    | some s => exact set_session_same_state mdsc msg.mds mds s _ hs (apply_lease_state s msg)
  | lease_release inode dn mask =>
    simp only [engine_step, ceph_mdsc_lease_release]
    apply map_sessions_ok
    intro s
    exact Or.inl rfl
  | drop_leases =>
    simp only [engine_step, ceph_mdsc_drop_leases]
    apply map_sessions_ok
    intro s
    exact Or.inl rfl
  | send_cap r cap used wanted cancel_work => exact session_step_ok_refl _
  | renew_caps r now window =>
    simp only [engine_step]
    cases hs : get_session mdsc r with
    | none => exact session_step_ok_refl _
    | some s =>
      exact set_session_same_state mdsc r mds s _ hs (renew_caps_state now window s)
  | delayed_work now window =>
    exact map_sessions_ok _ (fun s => by
      by_cases h : s.s_cap_ttl < now
      · rw [if_pos h]; exact close_session_edge s
      · rw [if_neg h]; exact Or.inl (renew_caps_state now window s)) mdsc mds
  | do_request req r => exact get_or_open_ok mdsc r mds
  | resend tid =>
    simp only [engine_step, resend_request]
    cases lookup_request mdsc tid with
    | none => exact session_step_ok_refl _
    | some req => exact session_step_ok_refl _
  | stop =>
    exact map_sessions_ok _ close_session_edge _ mds


theorem engine_trace_ok (max_fwd : Int) (mds : Nat) (evs : List engine_event) :
    ∀ mdsc : ceph_mds_client,
      List.Chain (fun a b => session_step_ok (get_session a mds) (get_session b mds))
        mdsc (engine_trace max_fwd mdsc evs) := by
  induction evs with
  | nil => intro mdsc; exact List.Chain.nil
  | cons ev rest ih =>
    intro mdsc
    exact List.Chain.cons (session_step_each max_fwd mdsc ev mds)
      (ih (engine_step max_fwd mdsc ev))

/-- C4. Under any sequence of engine operations and inbound messages (the
handlers of map, session, reply, forward, capability and lease messages; the
Session Manager's get_or_open, close, reconnect, resume and retry; create,
do_request, put and resend of requests; lease_release, drop_leases, send_cap,
renew_caps, the maintenance task and teardown), every step leaves each session
slot either unchanged in state or moved along one edge of the section 4.2 state
machine (an absent session appears in OPENING, allocated in NEW and opened at
once; no session disappears), at each single step and all along the trace of a
run; in particular a session in OPENING that receives a reconnect
acknowledgement is left as it was and so does not become OPEN. -/
theorem C4_session_state_follows_edges (max_fwd : Int) (mdsc : ceph_mds_client) (mds : Nat) :
    (∀ ev, session_step_ok (get_session mdsc mds)
      (get_session (engine_step max_fwd mdsc ev) mds)) ∧
    (∀ evs, List.Chain (fun a b => session_step_ok (get_session a mds) (get_session b mds))
      mdsc (engine_trace max_fwd mdsc evs)) ∧
    (∀ s, get_session mdsc mds = some s → s.s_state = CEPH_MDS_SESSION_OPENING →
      ceph_mdsc_handle_session mdsc { mds := mds, op := session_op.reconnect_ack } = mdsc ∧
      get_session (ceph_mdsc_handle_session mdsc
        { mds := mds, op := session_op.reconnect_ack }) mds = some s ∧
      s.s_state ≠ CEPH_MDS_SESSION_OPEN) := by
  refine ⟨fun ev => session_step_each max_fwd mdsc ev mds,
    fun evs => engine_trace_ok max_fwd mds evs mdsc, ?_⟩
  intro s hs hst
  have hsame : ceph_mdsc_handle_session mdsc { mds := mds, op := session_op.reconnect_ack }
      = mdsc := by
    unfold ceph_mdsc_handle_session
    simp only [hs]
    rw [if_neg (by rw [hst]; decide)]
  exact ⟨hsame, by rw [hsame]; exact hs, by rw [hst]; decide⟩

/-- Witness for C4: a client whose session to rank 1 is in OPENING receives a
reconnect acknowledgement from rank 1. -/
theorem C4_session_state_follows_edges_witness :
    get_session (session_get_or_open (registry_empty 0).mdsc 1) 1
      = some { new_session 1 with s_state := CEPH_MDS_SESSION_OPENING } ∧
    ceph_mdsc_handle_session (session_get_or_open (registry_empty 0).mdsc 1)
        { mds := 1, op := session_op.reconnect_ack }
      = session_get_or_open (registry_empty 0).mdsc 1 :=
  ⟨by decide,
   ((C4_session_state_follows_edges 5 (session_get_or_open (registry_empty 0).mdsc 1) 1).2.2
      { new_session 1 with s_state := CEPH_MDS_SESSION_OPENING } (by decide) (by decide)).1⟩


/-! ### Unknown transaction ids -/

theorem lookup_unregister (mdsc : ceph_mds_client) (tid : Nat) :
    lookup_request (unregister_request mdsc tid) tid = none := by
  unfold lookup_request unregister_request
  simp only [Option.map_eq_none', List.find?_eq_none]
  intro e he
  have := (List.mem_filter.1 he).2
  simpa using this

theorem handle_reply_unknown (mdsc : ceph_mds_client) (msg : reply_msg)
    (h : lookup_request mdsc msg.tid = none) : ceph_mdsc_handle_reply mdsc msg = mdsc := by
  unfold ceph_mdsc_handle_reply
  rw [h]

theorem handle_forward_unknown (max_fwd : Int) (mdsc : ceph_mds_client) (msg : forward_msg)
    (h : lookup_request mdsc msg.tid = none) :
    ceph_mdsc_handle_forward max_fwd mdsc msg = (mdsc, none) := by
  unfold ceph_mdsc_handle_forward
  rw [h]

/-- C5. For every client state: a reply or a forward whose transaction id is not
registered in request_tree is a no-op for ceph_mdsc_handle_reply and
ceph_mdsc_handle_forward, the client (registry, sessions and requests) comes back
as it was and a forward re-sends nothing; in particular this is so for an id
that was just released from the registry, and for an id above last_tid in a
well-formed registry (never issued). -/
theorem C5_unknown_tid_is_noop (max_fwd : Int) (mdsc : ceph_mds_client)
    (r : reply_msg) (f : forward_msg) :
    (lookup_request mdsc r.tid = none → ceph_mdsc_handle_reply mdsc r = mdsc) ∧
    (lookup_request mdsc f.tid = none →
      ceph_mdsc_handle_forward max_fwd mdsc f = (mdsc, none)) ∧
    ceph_mdsc_handle_reply (unregister_request mdsc r.tid) r = unregister_request mdsc r.tid ∧
    ceph_mdsc_handle_forward max_fwd (unregister_request mdsc f.tid) f
      = (unregister_request mdsc f.tid, none) ∧
    (∀ held, registry_wf { mdsc := mdsc, held := held } → mdsc.last_tid < r.tid →
      ceph_mdsc_handle_reply mdsc r = mdsc) ∧
    (∀ held, registry_wf { mdsc := mdsc, held := held } → mdsc.last_tid < f.tid →
      ceph_mdsc_handle_forward max_fwd mdsc f = (mdsc, none)) := by
  have hfresh : ∀ held tid, registry_wf { mdsc := mdsc, held := held } → mdsc.last_tid < tid →
      lookup_request mdsc tid = none := by
    intro held tid hwf hlt
    unfold lookup_request
    simp only [Option.map_eq_none', List.find?_eq_none]
    intro e he
    have hk := hwf.1 e he
    have hb := hwf.2.2 e.2.r_tid (by
      simp only [live_tids, List.mem_append, List.mem_map]
      exact Or.inr ⟨e, he, rfl⟩)
    simp only at hb
    simp only [beq_iff_eq]
    omega
  exact ⟨handle_reply_unknown mdsc r, handle_forward_unknown max_fwd mdsc f,
    handle_reply_unknown _ r (lookup_unregister mdsc r.tid),
    handle_forward_unknown max_fwd _ f (lookup_unregister mdsc f.tid),
    fun held hwf hlt => handle_reply_unknown mdsc r (hfresh held r.tid hwf hlt),
    fun held hwf hlt => handle_forward_unknown max_fwd mdsc f (hfresh held f.tid hwf hlt)⟩

/-- Witness for C5: the example client, where id 7 is registered and id 8 is
not, receives a reply and a forward for id 8. -/
theorem C5_unknown_tid_is_noop_witness :
    lookup_request example_client 8 = none ∧
    ceph_mdsc_handle_reply example_client
      { tid := 8, mds := 1, grants := [{ mds := 1, ino := 9, seq := 4, caps := 3 }] }
      = example_client ∧
    ceph_mdsc_handle_forward 5 example_client { tid := 8, next_mds := 0 }
      = (example_client, none) :=
  ⟨by decide,
   (C5_unknown_tid_is_noop 5 example_client
      { tid := 8, mds := 1, grants := [{ mds := 1, ino := 9, seq := 4, caps := 3 }] }
      { tid := 8, next_mds := 0 }).1 (by decide),
   (C5_unknown_tid_is_noop 5 example_client
      { tid := 8, mds := 1, grants := [{ mds := 1, ino := 9, seq := 4, caps := 3 }] }
      { tid := 8, next_mds := 0 }).2.1 (by decide)⟩


/-! ### osd_reqid_t: equality -/

/-- C6. For all osd_reqid_t l and r, `l == r` holds iff the names compare equal
with the `==` of entity_name_t, the incarnations are equal and the tids are
equal; the same for two values built by the constructor osd_reqid_t(a, i, t);
and when `==` on names is equality, `l == r` holds iff l and r are the same
triple. -/
theorem C6_reqid_eq_iff_triple {N : Type} (ops : entity_name_ops N) (l r : osd_reqid_t N) :
    (osd_reqid_t.op_eq ops l r = true ↔
      (ops.eq l.name r.name = true ∧ l.inc = r.inc ∧ l.tid = r.tid)) ∧
    (∀ (a a' : N) (i i' : Int) (t t' : Nat),
      osd_reqid_t.op_eq ops (osd_reqid a i t) (osd_reqid a' i' t') = true ↔
        (ops.eq a a' = true ∧ i = i' ∧ t = t')) ∧
    ((∀ a b, ops.eq a b = true ↔ a = b) →
      (osd_reqid_t.op_eq ops l r = true ↔ l = r)) := by
  have key : ∀ x y : osd_reqid_t N, osd_reqid_t.op_eq ops x y = true ↔
      (ops.eq x.name y.name = true ∧ x.inc = y.inc ∧ x.tid = y.tid) := by
    intro x y
    simp [osd_reqid_t.op_eq, and_assoc]
  refine ⟨key l r, fun a a' i i' t t' => key _ _, ?_⟩
  intro heq
  rw [key, heq]
  cases l; cases r
  simp only [osd_reqid_t.mk.injEq]
  tauto

/-- Witness for C6: with numbered names, two request ids built from the same
triple compare equal, and they are the same value. -/
theorem C6_reqid_eq_iff_triple_witness :
    (∀ a b, numbered_names.eq a b = true ↔ a = b) ∧
    (osd_reqid_t.op_eq numbered_names (osd_reqid 4 1 9) (osd_reqid 4 1 9) = true ↔
      (osd_reqid 4 1 9 : osd_reqid_t Nat) = osd_reqid 4 1 9) :=
  ⟨fun a b => by simp [numbered_names],
   (C6_reqid_eq_iff_triple numbered_names (osd_reqid 4 1 9) (osd_reqid 4 1 9)).2.2
     (fun a b => by simp [numbered_names])⟩

/-! ### pg_state_string -/

/-- C7. For every `int` state: pg_state_string(state) is "inactive" exactly
when none of the flags 1, 2, 4, 8, 16, 32, 64 is set in state; it is "inactive"
in that case and otherwise the names of the set flags, in the order creating,
active, clean, crashed, replay, stray, splitting, joined by single '+'
characters; the result neither starts nor ends with '+'; state 6 gives
"active+clean". -/
theorem C7_pg_state_string_names (state : Int) :
    (pg_state_string state = "inactive" ↔
      ∀ f ∈ [1, 2, 4, 8, 16, 32, 64], flag_set state f = false) ∧
    pg_state_string state =
      (if pg_state_set_names state = [] then "inactive"
       else "+".intercalate (pg_state_set_names state)) ∧
    (pg_state_string state).data.head? ≠ some '+' ∧
    (pg_state_string state).data.getLast? ≠ some '+' ∧
    pg_state_string 6 = "active+clean" := by
  simp only [pg_state_string, pg_state_set_names, pg_state_flag_names, List.filter_cons,
    List.filter_nil, PG_STATE_CREATING, PG_STATE_ACTIVE, PG_STATE_CLEAN, PG_STATE_CRASHED,
    PG_STATE_REPLAY, PG_STATE_STRAY, PG_STATE_SPLITTING, List.forall_mem_cons,
    List.not_mem_nil, IsEmpty.forall_iff, implies_true, and_true]
  refine ⟨?_, ?_, ?_, ?_, by decide⟩ <;>
  · generalize flag_set state 1 = b1
    generalize flag_set state 2 = b2
    generalize flag_set state 4 = b3
    generalize flag_set state 8 = b4
    generalize flag_set state 16 = b5
    generalize flag_set state 32 = b6
    generalize flag_set state 64 = b7
    cases b1 <;> cases b2 <;> cases b3 <;> cases b4 <;> cases b5 <;> cases b6 <;> cases b7 <;>
      decide

/-- Witness for C7: state 128 has none of the seven flags set, so the result is
"inactive". -/
theorem C7_pg_state_string_names_witness :
    (∀ f ∈ [1, 2, 4, 8, 16, 32, 64], flag_set 128 f = false) ∧
    pg_state_string 128 = "inactive" :=
  ⟨by decide, (C7_pg_state_string_names 128).1.2 (by decide)⟩

/-! ### Order on osd_reqid_t and eversion_t -/

theorem numbered_names_strict_total : numbered_names.strict_total := by
  refine ⟨fun a b => by simp [numbered_names], fun a => by simp [numbered_names],
    fun a b c => ?_, fun a b h => ?_⟩
  · simp only [numbered_names, decide_eq_true_eq]; omega
  · simp only [numbered_names, decide_eq_true_eq]; omega

/-- C8 fails on the code. With names in their usual order (a strict total
order), l = osd_reqid_t(0, 1, 0) and r = osd_reqid_t(1, 0, 0): `l < r` holds by
the names and `r < l` holds by the incarnations, so `operator<` is not
asymmetric, and it is not transitive since `l < l` does not hold. -/
theorem C8_reqid_lt_not_strict_order :
    numbered_names.strict_total ∧
    osd_reqid_t.op_lt numbered_names (osd_reqid 0 1 0) (osd_reqid 1 0 0) = true ∧
    osd_reqid_t.op_lt numbered_names (osd_reqid 1 0 0) (osd_reqid 0 1 0) = true ∧
    osd_reqid_t.op_lt numbered_names (osd_reqid 0 1 0) (osd_reqid 0 1 0) = false :=
  ⟨numbered_names_strict_total, by decide, by decide, by decide⟩

/-- C9 fails on the code. With names in their usual order, l = osd_reqid_t(0, 1,
0) and r = osd_reqid_t(1, 0, 0): `l > r` is false while `r < l` is true, and
`l >= r` is false while `r <= l` is true. -/
theorem C9_reqid_gt_not_converse :
    osd_reqid_t.op_gt numbered_names (osd_reqid 0 1 0) (osd_reqid 1 0 0) = false ∧
    osd_reqid_t.op_lt numbered_names (osd_reqid 1 0 0) (osd_reqid 0 1 0) = true ∧
    osd_reqid_t.op_ge numbered_names (osd_reqid 0 1 0) (osd_reqid 1 0 0) = false ∧
    osd_reqid_t.op_le numbered_names (osd_reqid 1 0 0) (osd_reqid 0 1 0) = true :=
  ⟨by decide, by decide, by decide, by decide⟩

/-- C10. The `operator<` on eversion_t is a strict total order: it is
irreflexive and transitive, and for all l and r exactly one of `l < r`,
`l == r`, `r < l` holds. -/
theorem C10_eversion_lt_strict_total_order (l r : eversion_t) :
    eversion_t.op_lt l l = false ∧
    (∀ m : eversion_t, eversion_t.op_lt l m = true → eversion_t.op_lt m r = true →
      eversion_t.op_lt l r = true) ∧
    ((eversion_t.op_lt l r = true ∧ eversion_t.op_eq l r = false ∧
        eversion_t.op_lt r l = false) ∨
     (eversion_t.op_lt l r = false ∧ eversion_t.op_eq l r = true ∧
        eversion_t.op_lt r l = false) ∨
     (eversion_t.op_lt l r = false ∧ eversion_t.op_eq l r = false ∧
        eversion_t.op_lt r l = true)) ∧
    (eversion_t.op_eq l r = true ↔ l = r) := by
  obtain ⟨lv, le⟩ := l
  obtain ⟨rv, re⟩ := r
  refine ⟨by simp [eversion_t.op_lt], ?_, ?_, ?_⟩
  · rintro ⟨mv, me⟩
    simp only [eversion_t.op_lt, beq_iff_eq]
    intro h1 h2
    split_ifs at h1 h2 ⊢ <;> simp only [decide_eq_true_eq] at h1 h2 ⊢ <;> omega
  · simp only [eversion_t.op_lt, eversion_t.op_eq, beq_iff_eq]
    rcases Nat.lt_trichotomy le re with h | h | h
    · left
      have h1 : ¬ le = re := by omega
      have h2 : ¬ re = le := by omega
      simp [h1, h2, h]
      omega
    · rcases Nat.lt_trichotomy lv rv with h' | h' | h'
      · left
        have : ¬ lv = rv := by omega
        simp [h, h', this]
        omega
      · right; left
        simp [h, h']
      · right; right
        have : ¬ lv = rv := by omega
        simp [h, h', this]
        omega
    · right; right
      have h1 : ¬ le = re := by omega
      have h2 : ¬ re = le := by omega
      simp [h1, h2, h]
      omega
  · simp [eversion_t.op_eq]
    tauto

/-- Witness for C10: eversion_t(1, 5) < eversion_t(2, 0) < eversion_t(2, 3), so
eversion_t(1, 5) < eversion_t(2, 3). -/
theorem C10_eversion_lt_strict_total_order_witness :
    eversion_t.op_lt (eversion 1 5) (eversion 2 0) = true ∧
    eversion_t.op_lt (eversion 2 0) (eversion 2 3) = true ∧
    eversion_t.op_lt (eversion 1 5) (eversion 2 3) = true :=
  ⟨by decide, by decide,
   (C10_eversion_lt_strict_total_order (eversion 1 5) (eversion 2 3)).2.1 (eversion 2 0)
     (by decide) (by decide)⟩

/-- C11. For all epochs e1, e2 and versions v1, v2: eversion_t(e1, v1) <
eversion_t(e2, v2) holds iff e1 < e2, or e1 == e2 and v1 < v2. The constructor
puts its first argument in `epoch` and its second in `version`, and the
comparison is lexicographic with the epoch as the major key although `version`
is the first field: eversion_t(1, 9) < eversion_t(2, 0), and not the other way
round. -/
theorem C11_eversion_lt_epoch_major (e1 v1 e2 v2 : Nat) :
    (eversion_t.op_lt (eversion e1 v1) (eversion e2 v2) = true ↔
      (e1 < e2 ∨ (e1 = e2 ∧ v1 < v2))) ∧
    (eversion e1 v1).epoch = e1 ∧ (eversion e1 v1).version = v1 ∧
    eversion e1 v1 = { version := v1, epoch := e1 } ∧
    eversion_t.op_lt (eversion 1 9) (eversion 2 0) = true ∧
    eversion_t.op_lt (eversion 2 0) (eversion 1 9) = false := by
  refine ⟨?_, rfl, rfl, rfl, by decide, by decide⟩
  simp only [eversion_t.op_lt, eversion, beq_iff_eq]
  by_cases h : e1 = e2
  · simp [h]
  · simp only [h, if_false, decide_eq_true_eq, false_and, or_false]

/-- Witness for C11: epochs 3 and 3, versions 4 and 7: the epochs are equal and
4 < 7, so eversion_t(3, 4) < eversion_t(3, 7). -/
theorem C11_eversion_lt_epoch_major_witness :
    (3 < 3 ∨ (3 = 3 ∧ 4 < 7)) ∧
    eversion_t.op_lt (eversion 3 4) (eversion 3 7) = true :=
  ⟨by decide, (C11_eversion_lt_epoch_major 3 4 3 7).1.2 (by decide)⟩

/-! ### Session state codes -/

/-- C12. The six session state codes CEPH_MDS_SESSION_NEW, OPENING, OPEN,
CLOSING, RESUMING and RECONNECTING are the values 1, 2, 3, 4, 5, 6 and pairwise
distinct; two states of the section 4.2 state machine with the same code are the
same state, so an s_state value names at most one state; every state has a code
among the six, and every one of the six codes is the code of a state. -/
theorem C12_session_codes_distinct (a b : session_state) (v : Int) :
    session_state_codes = [1, 2, 3, 4, 5, 6] ∧
    session_state_codes.Nodup ∧
    (a.code = b.code → a = b) ∧
    (a.code = v → b.code = v → a = b) ∧
    a.code ∈ session_state_codes ∧
    (v ∈ session_state_codes → ∃ s : session_state, s.code = v) := by
  have hinj : ∀ x y : session_state, x.code = y.code → x = y := by
    intro x y
    cases x <;> cases y <;> decide
  refine ⟨by decide, by decide, hinj a b, fun h1 h2 => hinj a b (h1.trans h2.symm), ?_, ?_⟩
  · cases a <;> decide
  · intro hv
    simp only [session_state_codes, List.mem_cons, List.mem_singleton, List.not_mem_nil,
      or_false] at hv
    rcases hv with h | h | h | h | h | h
    · exact ⟨session_state.NEW, h.symm⟩
    · exact ⟨session_state.OPENING, h.symm⟩
    · exact ⟨session_state.OPEN, h.symm⟩
    · exact ⟨session_state.CLOSING, h.symm⟩
    · exact ⟨session_state.RESUMING, h.symm⟩
    · exact ⟨session_state.RECONNECTING, h.symm⟩

/-- Witness for C12: the value 3 is one of the six codes, and it is the code of
a state. -/
theorem C12_session_codes_distinct_witness :
    (3 : Int) ∈ session_state_codes ∧ ∃ s : session_state, s.code = 3 :=
  ⟨by decide,
   (C12_session_codes_distinct session_state.NEW session_state.NEW 3).2.2.2.2.2 (by decide)⟩

end Ceph
